import Mathlib

/-!
# saker.build native file watchers

A shallow embedding of the two native watcher services of saker.build:

* `native/macos/watcher/main.cpp`: the FSEvents callback
  `WatcherService::WatchKey::eventCallbackFunction`, which turns raw
  (path, flags) notifications into `notifyEvent` calls;
* `native/win32/watcher/dllmain.cpp`: the completion-port event loop
  `WatcherService::runThread` with `handleCompletionEntries`,
  `handleNotifyInformations` and `DirectoryWatch::readDirectoryChanges`.

Strings are lists of UTF-16 code units (`Nat`), pointers and handles are
`Nat` addresses (`0` is `NULL`), and every JNI `notifyEvent` call is recorded
in a log, in call order.
-/

/-! ## Shared by both services -/

def FLAG_FILE_TREE : Nat := 1 <<< 0
def FLAG_EVENT_CREATE : Nat := 1 <<< 1
def FLAG_EVENT_MODIFY : Nat := 1 <<< 2
def FLAG_EVENT_DELETE : Nat := 1 <<< 3
def FLAG_EVENT_OVERFLOW : Nat := 1 <<< 4

/-- One call of the Java callback `notifyEvent(key, flag, path)`; `path = none`
is a `nullptr` path argument. -/
structure Event where
  keyObject : Nat
  flag : Nat
  path : Option (List Nat)
deriving DecidableEq, Repr

/-- The path of a call is absent exactly when its kind is `Overflow`. -/
def PathIffKind (e : Event) : Prop :=
  e.path = none ↔ e.flag = FLAG_EVENT_OVERFLOW

namespace MacOS

/-! The `FSEventStreamEventFlags` bits, with the values of `FSEvents.h`. -/

def kFSEventStreamEventFlagMustScanSubDirs : Nat := 0x00000001
def kFSEventStreamEventFlagUserDropped : Nat := 0x00000002
def kFSEventStreamEventFlagKernelDropped : Nat := 0x00000004
def kFSEventStreamEventFlagRootChanged : Nat := 0x00000020
def kFSEventStreamEventFlagItemCreated : Nat := 0x00000100
def kFSEventStreamEventFlagItemRemoved : Nat := 0x00000200
def kFSEventStreamEventFlagItemInodeMetaMod : Nat := 0x00000400
def kFSEventStreamEventFlagItemRenamed : Nat := 0x00000800
def kFSEventStreamEventFlagItemModified : Nat := 0x00001000
def kFSEventStreamEventFlagItemFinderInfoMod : Nat := 0x00002000
def kFSEventStreamEventFlagItemChangeOwner : Nat := 0x00004000
def kFSEventStreamEventFlagItemXattrMod : Nat := 0x00008000

/-- Number of `UniChar` slots of the stack buffer `UniChar buf[1024 * 16]`. -/
def BUFLEN : Nat := 1024 * 16

/-- The code unit of the path separator, `'/'`. -/
def SLASH : Nat := 47

/-! ## Data -/

/-- The fields of `WatcherService::WatchKey` that the callback reads. -/
structure WatchKey where
  keyObject : Nat
  pathLen : Nat
  keyPath : List Nat
  rootInstall : Bool
deriving DecidableEq, Repr

/-- The constructor `WatchKey(service, keyobject, path)`. -/
def WatchKey.new (keyobject : Nat) (path : List Nat) : WatchKey :=
  { keyObject := keyobject
    pathLen := path.length
    keyPath := path
    rootInstall := path.length == 1 && path.getD 0 0 == SLASH }

/-! ## Memory view of a `UniChar` array -/

/-- The two bytes of one `UniChar` in memory (little endian, as on every
macOS target). -/
def unitBytes (u : Nat) : List Nat := [u % 256, u / 256 % 256]

/-- The bytes of a `UniChar` array. -/
def toBytes : List Nat → List Nat
  | [] => []
  | u :: us => unitBytes u ++ toBytes us

/-- The C function `memcmp(a, b, n)` on byte sequences: the difference of the
first pair of differing bytes among the first `n`, or `0`. -/
def memcmp : List Nat → List Nat → Nat → Int
  | a :: as, b :: bs, n + 1 => if a = b then memcmp as bs n else (a : Int) - (b : Int)
  | _, _, _ => 0

/-- The call `CFStringGetCharacters(path, CFRangeMake(0, len), buf)`: the
first `len` slots of `buf` are overwritten, the others keep their old
content.  A path longer than the buffer overruns it (`none`). -/
def CFStringGetCharacters (path : List Nat) (buf : List Nat) : Option (List Nat) :=
  if path.length ≤ buf.length then some (path ++ buf.drop path.length) else none

/-- The call `env->NewString(bufptr, createstrlen)` with `bufptr = buf + off`. -/
def NewString (buf : List Nat) (off len : Nat) : List Nat :=
  (buf.drop off).take len

/-! ## The callback -/

/-- The method `WatchKey::notifyOverflow`. -/
def WatchKey.notifyOverflow (key : WatchKey) : Event :=
  { keyObject := key.keyObject, flag := FLAG_EVENT_OVERFLOW, path := none }

/-- The flag cascade of the loop body (`int notifyeventflag; ...`): `none` is a
branch that calls `notifyOverflow` and continues. -/
def notifyeventflag (ef : Nat) : Option Nat :=
  if ef &&& (kFSEventStreamEventFlagUserDropped ||| kFSEventStreamEventFlagKernelDropped
      ||| kFSEventStreamEventFlagMustScanSubDirs) ≠ 0 then none
  else if ef &&& kFSEventStreamEventFlagRootChanged ≠ 0 then none
  else if ef &&& kFSEventStreamEventFlagItemCreated ≠ 0 then some FLAG_EVENT_CREATE
  else if ef &&& (kFSEventStreamEventFlagItemInodeMetaMod ||| kFSEventStreamEventFlagItemModified
      ||| kFSEventStreamEventFlagItemFinderInfoMod ||| kFSEventStreamEventFlagItemChangeOwner
      ||| kFSEventStreamEventFlagItemXattrMod) ≠ 0 then some FLAG_EVENT_MODIFY
  else if ef &&& (kFSEventStreamEventFlagItemRemoved ||| kFSEventStreamEventFlagItemRenamed) ≠ 0 then
    some FLAG_EVENT_DELETE
  else none

/-- The path part of the loop body, on the buffer as filled for an event of
`len` code units: `some (off, createstrlen)` is `bufptr = buf + off` with its
length, `none` is a branch that calls `notifyOverflow` and continues. -/
def relativePart (key : WatchKey) (buf : List Nat) (len : Nat) : Option (Nat × Nat) :=
  if len < key.pathLen then none
  else if memcmp (toBytes key.keyPath) (toBytes buf) key.pathLen ≠ 0 then none
  else if len = key.pathLen then some (0, 0)
  else if key.rootInstall then some (1, len - 1)
  else if buf.getD key.pathLen 0 ≠ SLASH then none
  else some (key.pathLen + 1, len - key.pathLen - 1)

/-- One iteration of the `for` loop of `eventCallbackFunction`, for the raw
event `(path, ef)`: the buffer after the iteration and the `notifyEvent` calls
made by it.  `none` stands for a path that does not fit the buffer. -/
def eventIteration (key : WatchKey) (buf : List Nat) (path : List Nat) (ef : Nat) :
    Option (List Nat × List Event) :=
  match CFStringGetCharacters path buf with
  | none => none
  | some buf1 =>
    match relativePart key buf1 path.length with
    | none => some (buf1, [key.notifyOverflow])
    | some (off, createstrlen) =>
      match notifyeventflag ef with
      | none => some (buf1, [key.notifyOverflow])
      | some flag =>
        some (buf1, [{ keyObject := key.keyObject, flag := flag,
                       path := some (NewString buf1 off createstrlen) }])

/-- The function `WatchKey::eventCallbackFunction` on the raw events
`(eventPaths[i], eventFlags[i])`, starting from a buffer `buf` of arbitrary
content: all `notifyEvent` calls, in call order. -/
def eventCallbackFunction (key : WatchKey) : List Nat → List (List Nat × Nat) → Option (List Event)
  | _, [] => some []
  | buf, (path, ef) :: rest =>
    match eventIteration key buf path ef with
    | none => none
    | some (buf1, calls) =>
      match eventCallbackFunction key buf1 rest with
      | none => none
      | some more => some (calls ++ more)

/-- The method `WatcherService::isValidKey`. -/
def isValidKey (_key : WatchKey) : Bool := true


/-! ## `addKey` -/

/-- What the system answers to the calls of the block that `addKey` hands to
the run loop: the stream returned by `FSEventStreamCreate` (`0` is `NULL`) and
the result of `FSEventStreamStart`. -/
structure StreamAnswers where
  FSEventStreamCreate : Nat
  FSEventStreamStart : Bool
deriving DecidableEq, Repr

/-- The method `WatcherService::addKey(path, flags, keyref)` with the run loop
`threadRunLoop` of the thread (`0` is `NULL`): `none` is the returned
`nullptr`, otherwise the returned key with the stream given to `initStream`.
The results of `FSEventStreamCreate` and `FSEventStreamStart` are not
tested. -/
def addKey (threadRunLoop : Nat) (os : StreamAnswers) (path : List Nat) (keyref : Nat) :
    Option (WatchKey × Nat) :=
  if threadRunLoop = 0 then none
  else some (WatchKey.new keyref path, os.FSEventStreamCreate)

end MacOS

namespace Win32

/-! ## Constants -/

def ERROR_SUCCESS : Nat := 0
def ERROR_ACCESS_DENIED : Nat := 5
def ERROR_INVALID_HANDLE : Nat := 6
def ERROR_NOTIFY_ENUM_DIR : Nat := 1022

def FILE_ACTION_ADDED : Nat := 1
def FILE_ACTION_REMOVED : Nat := 2
def FILE_ACTION_MODIFIED : Nat := 3
def FILE_ACTION_RENAMED_OLD_NAME : Nat := 4
def FILE_ACTION_RENAMED_NEW_NAME : Nat := 5

/-- The value `INVALID_HANDLE_VALUE`, that is `(HANDLE)-1`. -/
def INVALID_HANDLE_VALUE : Nat := 2 ^ 64 - 1

/-- The constant `DirectoryWatch::BUFFERSIZE`, `16380 * sizeof(DWORD)`. -/
def BUFFERSIZE : Nat := 16380 * 4

/-- The constant `COMMAND_KEY_EXIT`, the `DWORD` value of `-1`. -/
def COMMAND_KEY_EXIT : Nat := 2 ^ 32 - 1
def COMMAND_KEY_POLL : Nat := 1
def COMMAND_KEY_ADD_FILE : Nat := 2
def COMMAND_KEY_REMOVE_FILE : Nat := 3
def COMMAND_KEY_DELETE_FILE : Nat := 4
def COMMAND_KEY_POLL_DONE : Nat := 5

/-! ## Data -/

/-- The Win32 record `OVERLAPPED_ENTRY`; `lpOverlapped = 0` is `NULL`. -/
structure OVERLAPPED_ENTRY where
  lpCompletionKey : Nat
  lpOverlapped : Nat
  dwNumberOfBytesTransferred : Nat
deriving DecidableEq, Repr, Inhabited

/-- The Win32 record `FILE_NOTIFY_INFORMATION`; `FileName` holds the code
units stored from the `FileName` field on, `FileNameLength` counts bytes. -/
structure FILE_NOTIFY_INFORMATION where
  NextEntryOffset : Nat
  Action : Nat
  FileNameLength : Nat
  FileName : List Nat
deriving DecidableEq, Repr, Inhabited

/-- The calls that leave the service, in the order they are made. -/
inductive Effect where
  | notify (e : Event)
  | SetEvent (h : Nat)
  | ReadDirectoryChangesW (fileHandle : Nat) (failure : Option Nat)
  | CancelIoEx (fileHandle : Nat)
  | CloseHandle (h : Nat)
  | DetachCurrentThread
  | ExitThread (exitcode : Nat)
deriving DecidableEq, Repr

/-- The class `WatcherService::DirectoryWatch`.  `buffer p` is the record
that `reinterpret_cast<const FILE_NOTIFY_INFORMATION*>` reads at byte offset
`p` of `buffer`. -/
structure DirectoryWatch where
  buffer : Nat → FILE_NOTIFY_INFORMATION
  fileHandle : Nat
  pollEvent : Nat
  anyErrorCode : Nat
  keyObject : Nat

/-- The struct `WatcherService::AddFileCallbackParam`. -/
structure AddFileCallbackParam where
  watch : Nat
  err : Nat

/-- The class `WatcherService` with the memory it points into and its
surroundings.

* `watches` and `params` are the objects behind `DirectoryWatch*` and
  `AddFileCallbackParam*` pointers;
* `port` is the queue of the completion port, oldest entry first;
* `rdcw` lists the outcomes of the coming `ReadDirectoryChangesW` calls in
  call order, `none` for success and `some e` for a failure with
  `GetLastError() = e`; calls after the listed ones succeed;
* `trace` records the calls made so far, oldest first;
* `exited` is the code passed to `ExitThread`, once the thread has ended;
* `memoryFault` becomes `true` when `overlappedEntries` is indexed at or
  beyond its size or popped while empty. -/
structure WatcherService where
  addedWatches : List Nat
  toDeleteWatches : List Nat
  overlappedEntries : List OVERLAPPED_ENTRY
  pollEventNotifies : List Nat
  env : Nat
  addFileEvent : Nat
  watches : Nat → DirectoryWatch
  params : Nat → AddFileCallbackParam
  port : List OVERLAPPED_ENTRY
  rdcw : List (Option Nat)
  trace : List Effect
  exited : Option Nat
  memoryFault : Bool

/-- Assignment through a pointer: the object at `p` becomes `v`. -/
def store {α : Type} (heap : Nat → α) (p : Nat) (v : α) : Nat → α :=
  fun q => if q = p then v else heap q

/-- The method `unordered_set::erase(key)`. -/
def setErase (xs : List Nat) (x : Nat) : List Nat := xs.filter (fun y => y != x)

/-- The method `unordered_set::insert(key)`. -/
def setInsert (xs : List Nat) (x : Nat) : List Nat := if x ∈ xs then xs else x :: xs

/-- The `notifyEvent` calls of a trace. -/
def notifications : List Effect → List Event
  | [] => []
  | Effect.notify e :: t => e :: notifications t
  | _ :: t => notifications t

/-- The handles on which a trace calls `SetEvent`. -/
def signals : List Effect → List Nat
  | [] => []
  | Effect.SetEvent h :: t => h :: signals t
  | _ :: t => signals t

/-! ## `DirectoryWatch` -/

/-- The method `DirectoryWatch::closeHandles`: the watch afterwards and the
calls made. -/
def DirectoryWatch.closeHandles (w : DirectoryWatch) : DirectoryWatch × List Effect :=
  let r1 : DirectoryWatch × List Effect :=
    if w.fileHandle ≠ INVALID_HANDLE_VALUE then
      ({ w with fileHandle := INVALID_HANDLE_VALUE }, [Effect.CloseHandle w.fileHandle])
    else (w, [])
  if r1.1.pollEvent ≠ 0 then
    ({ r1.1 with pollEvent := 0 },
      r1.2 ++ [Effect.SetEvent r1.1.pollEvent, Effect.CloseHandle r1.1.pollEvent])
  else r1

/-- The event of `WatcherService::postOverflowEvent(watch)`. -/
def overflowEvent (keyObject : Nat) : Event :=
  { keyObject := keyObject, flag := FLAG_EVENT_OVERFLOW, path := none }

/-- The method `WatcherService::postOverflowEvent`. -/
def postOverflowEvent (s : WatcherService) (watch : Nat) : WatcherService :=
  { s with trace := s.trace ++ [Effect.notify (overflowEvent (s.watches watch).keyObject)] }

/-- The loop `start: ... goto start` of `DirectoryWatch::readDirectoryChanges`
against the outcomes `rdcw` of the coming `ReadDirectoryChangesW` calls: the
calls made, the returned error code and the outcomes left. -/
def readDirectoryChangesLoop (fileHandle keyObject : Nat) :
    List (Option Nat) → List Effect × Nat × List (Option Nat)
  | [] => ([Effect.ReadDirectoryChangesW fileHandle none], ERROR_SUCCESS, [])
  | none :: rest => ([Effect.ReadDirectoryChangesW fileHandle none], ERROR_SUCCESS, rest)
  | some err :: rest =>
    if err = ERROR_NOTIFY_ENUM_DIR then
      let r := readDirectoryChangesLoop fileHandle keyObject rest
      (Effect.ReadDirectoryChangesW fileHandle (some err)
        :: Effect.notify (overflowEvent keyObject) :: r.1, r.2.1, r.2.2)
    else ([Effect.ReadDirectoryChangesW fileHandle (some err)], err, rest)

/-- The method `DirectoryWatch::readDirectoryChanges(service)` on the watch at
`watch`: the service afterwards and the returned error code. -/
def readDirectoryChanges (s : WatcherService) (watch : Nat) : WatcherService × Nat :=
  let r := readDirectoryChangesLoop (s.watches watch).fileHandle (s.watches watch).keyObject s.rdcw
  ({ s with trace := s.trace ++ r.1, rdcw := r.2.2 }, r.2.1)

/-! ## `handleNotifyInformations` -/

/-- The `switch (info.Action)` of `handleNotifyInformations`: the
`notifyEvent` calls for one record. -/
def actionEvents (keyObject : Nat) (info : FILE_NOTIFY_INFORMATION) : List Event :=
  if info.Action = FILE_ACTION_MODIFIED then
    [{ keyObject := keyObject, flag := FLAG_EVENT_MODIFY,
       path := some (info.FileName.take (info.FileNameLength / 2)) }]
  else if info.Action = FILE_ACTION_ADDED ∨ info.Action = FILE_ACTION_RENAMED_NEW_NAME then
    [{ keyObject := keyObject, flag := FLAG_EVENT_CREATE,
       path := some (info.FileName.take (info.FileNameLength / 2)) }]
  else if info.Action = FILE_ACTION_REMOVED ∨ info.Action = FILE_ACTION_RENAMED_OLD_NAME then
    [{ keyObject := keyObject, flag := FLAG_EVENT_DELETE,
       path := some (info.FileName.take (info.FileNameLength / 2)) }]
  else []

/-- The `while (true)` loop of `handleNotifyInformations` from byte offset
`p`.  Every round moves `p` forward, so at most `BUFFERSIZE` records lie inside
the buffer; the first argument bounds the rounds by that. -/
def notifyLoop (keyObject : Nat) (buffer : Nat → FILE_NOTIFY_INFORMATION) :
    Nat → Nat → List Event
  | 0, _ => []
  | fuel + 1, p =>
    actionEvents keyObject (buffer p) ++
      (if (buffer p).NextEntryOffset = 0 then []
       else notifyLoop keyObject buffer fuel (p + (buffer p).NextEntryOffset))

/-- The tail of `handleNotifyInformations`: re-arm the read and keep a failure
in `anyErrorCode`. -/
def rearm (s : WatcherService) (watch : Nat) : WatcherService :=
  let r := readDirectoryChanges s watch
  if r.2 ≠ ERROR_SUCCESS then
    { r.1 with watches := store r.1.watches watch { (r.1.watches watch) with anyErrorCode := r.2 } }
  else r.1

/-- The method `handleNotifyInformations(watch, bytestransferred, p, ol)`. -/
def handleNotifyInformations (s : WatcherService) (watch : Nat) (bytestransferred : Nat) :
    WatcherService :=
  if bytestransferred > 0 then
    let events := notifyLoop (s.watches watch).keyObject (s.watches watch).buffer BUFFERSIZE 0
    rearm { s with trace := s.trace ++ events.map Effect.notify } watch
  else if watch ∉ s.addedWatches then s
  else rearm (postOverflowEvent s watch) watch

/-! ## `handleCompletionEntries` -/

/-- The method `WatcherService::executeExitThread(exitcode)`. -/
def executeExitThread (s : WatcherService) (exitcode : Nat) : WatcherService :=
  { s with
    trace := s.trace ++ (if s.env ≠ 0 then [Effect.DetachCurrentThread] else [])
      ++ s.pollEventNotifies.map Effect.SetEvent ++ [Effect.ExitThread exitcode]
    exited := some exitcode }

/-- The call `PostQueuedCompletionStatus(port, bytes, key, NULL)`: the entry
joins the end of the port queue. -/
def PostQueuedCompletionStatus (s : WatcherService) (bytes key : Nat) : WatcherService :=
  { s with port := s.port ++ [{ lpCompletionKey := key, lpOverlapped := 0,
                                dwNumberOfBytesTransferred := bytes }] }

/-- The case `COMMAND_KEY_POLL`. -/
def handlePoll (s : WatcherService) (watch : Nat) : WatcherService :=
  if s.overlappedEntries.length = 1 ∨ (s.watches watch).anyErrorCode ≠ ERROR_SUCCESS then
    { s with trace := s.trace ++ [Effect.SetEvent (s.watches watch).pollEvent] }
  else
    PostQueuedCompletionStatus
      { s with pollEventNotifies := setInsert s.pollEventNotifies (s.watches watch).pollEvent }
      COMMAND_KEY_POLL_DONE (s.watches watch).pollEvent

/-- The case `COMMAND_KEY_POLL_DONE`. -/
def handlePollDone (s : WatcherService) (pollevent : Nat) : WatcherService :=
  if pollevent ∈ s.pollEventNotifies then
    { s with pollEventNotifies := setErase s.pollEventNotifies pollevent
             trace := s.trace ++ [Effect.SetEvent pollevent] }
  else s

/-- The case `COMMAND_KEY_ADD_FILE` up to, and without, the final
`SetEvent(this->addFileEvent)`.  The fresh `watch->buffer` has no content of
its own, so `buffer` is left as it is. -/
def handleAddFileBody (s : WatcherService) (param : Nat) : WatcherService :=
  let watch := (s.params param).watch
  let r := readDirectoryChanges s watch
  let s1 := { r.1 with params := store r.1.params param { (r.1.params param) with err := r.2 } }
  if r.2 = ERROR_SUCCESS then
    { s1 with addedWatches := setInsert s1.addedWatches watch
              overlappedEntries := s1.overlappedEntries ++ [{ lpCompletionKey := 0, lpOverlapped := 0,
                                                              dwNumberOfBytesTransferred := 0 }] }
  else s1

/-- The case `COMMAND_KEY_ADD_FILE`. -/
def handleAddFile (s : WatcherService) (param : Nat) : WatcherService :=
  let s1 := handleAddFileBody s param
  { s1 with trace := s1.trace ++ [Effect.SetEvent s1.addFileEvent] }

/-- The case `COMMAND_KEY_REMOVE_FILE`. -/
def handleRemoveFile (s : WatcherService) (watch : Nat) : WatcherService :=
  let s1 := { s with overlappedEntries := s.overlappedEntries.dropLast
                     memoryFault := s.memoryFault || s.overlappedEntries.isEmpty
                     addedWatches := setErase s.addedWatches watch
                     toDeleteWatches := setInsert s.toDeleteWatches watch }
  let s2 :=
    if (s1.watches watch).pollEvent ∈ s1.pollEventNotifies then
      { s1 with pollEventNotifies := setErase s1.pollEventNotifies (s1.watches watch).pollEvent
                trace := s1.trace ++ [Effect.SetEvent (s1.watches watch).pollEvent] }
    else s1
  let s3 := PostQueuedCompletionStatus
    { s2 with trace := s2.trace ++ [Effect.CancelIoEx (s2.watches watch).fileHandle] }
    COMMAND_KEY_DELETE_FILE watch
  let c := (s3.watches watch).closeHandles
  { s3 with watches := store s3.watches watch c.1, trace := s3.trace ++ c.2 }

/-- The case `COMMAND_KEY_DELETE_FILE`; `delete watch` runs the destructor,
which calls `closeHandles`. -/
def handleDeleteFile (s : WatcherService) (watch : Nat) : WatcherService :=
  if watch ∈ s.toDeleteWatches then
    let c := (s.watches watch).closeHandles
    { s with toDeleteWatches := setErase s.toDeleteWatches watch
             watches := store s.watches watch c.1
             trace := s.trace ++ c.2 }
  else s

/-- The body of the `for` loop of `handleCompletionEntries` for the entry
`entry`; the second component is the local variable `exit`. -/
def handleEntry (st : WatcherService × Bool) (entry : OVERLAPPED_ENTRY) : WatcherService × Bool :=
  if entry.lpOverlapped = 0 then
    if entry.dwNumberOfBytesTransferred = COMMAND_KEY_EXIT then (st.1, true)
    else if entry.dwNumberOfBytesTransferred = COMMAND_KEY_POLL then
      (handlePoll st.1 entry.lpCompletionKey, st.2)
    else if entry.dwNumberOfBytesTransferred = COMMAND_KEY_POLL_DONE then
      (handlePollDone st.1 entry.lpCompletionKey, st.2)
    else if entry.dwNumberOfBytesTransferred = COMMAND_KEY_ADD_FILE then
      (handleAddFile st.1 entry.lpCompletionKey, st.2)
    else if entry.dwNumberOfBytesTransferred = COMMAND_KEY_REMOVE_FILE then
      (handleRemoveFile st.1 entry.lpCompletionKey, st.2)
    else if entry.dwNumberOfBytesTransferred = COMMAND_KEY_DELETE_FILE then
      (handleDeleteFile st.1 entry.lpCompletionKey, st.2)
    else st
  else
    (handleNotifyInformations st.1 entry.lpCompletionKey entry.dwNumberOfBytesTransferred, st.2)

/-- One round of the `for` loop: `auto&& entry = overlappedEntries[i]` and the
loop body on it. -/
def handleIndex (st : WatcherService × Bool) (i : Nat) : WatcherService × Bool :=
  handleEntry
    ({ st.1 with memoryFault := st.1.memoryFault || decide (st.1.overlappedEntries.length ≤ i) }, st.2)
    (st.1.overlappedEntries.getD i default)

/-- The loop `for (size_t i = entriesremoved - 1; i < entriesremoved; i--)`
from index `i` on, with `i--` on the 64-bit `size_t`.  The loop runs at most
`entriesremoved` rounds; the first argument bounds the rounds by that. -/
def handleLoop : Nat → Nat → Nat → WatcherService × Bool → WatcherService × Bool
  | 0, _, _, st => st
  | fuel + 1, i, entriesremoved, st =>
    if i < entriesremoved then
      handleLoop fuel ((i + (2 ^ 64 - 1)) % 2 ^ 64) entriesremoved (handleIndex st i)
    else st

/-- The method `handleCompletionEntries(entriesremoved, polling)`;
`entriesremoved - 1` is computed on the 32-bit `ULONG`. -/
def handleCompletionEntries (s : WatcherService) (entriesremoved : Nat) : WatcherService :=
  let r := handleLoop entriesremoved ((entriesremoved + (2 ^ 32 - 1)) % 2 ^ 32) entriesremoved
    (s, false)
  if r.2 then executeExitThread r.1 0 else r.1

/-! ## `runThread` -/

/-- What one call of `GetQueuedCompletionStatusEx` in `runThread` does: it
fails with `GetLastError() = err`, or it takes up to `count` entries off the
port. -/
inductive WaitResult where
  | failure (err : Nat)
  | removed (count : Nat)
deriving DecidableEq, Repr

/-- The body of `for (auto&& w : addedWatches)` in the failure branch of
`runThread`. -/
def failWatch (err : Nat) (s : WatcherService) (w : Nat) : WatcherService :=
  let c := ({ (s.watches w) with anyErrorCode := err } : DirectoryWatch).closeHandles
  postOverflowEvent { s with watches := store s.watches w c.1, trace := s.trace ++ c.2 } w

/-- The failure branch of `runThread`: `if (!success) { ... }`. -/
def runThreadFailure (s : WatcherService) (err : Nat) : WatcherService :=
  executeExitThread (s.addedWatches.foldl (failWatch err) s) (2 ^ 32 - 1)

/-- One round of the `while (true)` loop of `runThread`.  A successful wait
hands over the oldest entries of the port, at least one and at most
`overlappedEntries.size()`, into the first slots of `overlappedEntries`; with
nothing to hand over the wait goes on.  A thread that has exited does
nothing. -/
def runThreadIteration (s : WatcherService) (r : WaitResult) : WatcherService :=
  if s.exited.isSome then s
  else
    match r with
    | WaitResult.failure err => runThreadFailure s err
    | WaitResult.removed count =>
      let entriesremoved := min count (min s.overlappedEntries.length s.port.length)
      if entriesremoved = 0 then s
      else
        handleCompletionEntries
          { s with overlappedEntries :=
                     s.port.take entriesremoved ++ s.overlappedEntries.drop entriesremoved
                   port := s.port.drop entriesremoved }
          entriesremoved

/-- What happens around and in the event-loop thread. -/
inductive Step where
  /-- An entry reaches the port: a command posted by a caller thread or the
  completion of a read. -/
  | post (entry : OVERLAPPED_ENTRY)
  /-- The kernel stores change records in the buffer of a watch. -/
  | fill (watch : Nat) (buffer : Nat → FILE_NOTIFY_INFORMATION)
  /-- A round of the loop of `runThread`. -/
  | wait (r : WaitResult)

/-- The effect of one step. -/
def step (s : WatcherService) : Step → WatcherService
  | Step.post entry => { s with port := s.port ++ [entry] }
  | Step.fill watch buffer =>
    { s with watches := store s.watches watch { (s.watches watch) with buffer := buffer } }
  | Step.wait r => runThreadIteration s r

/-- A run: the steps one after the other. -/
def run (s : WatcherService) (steps : List Step) : WatcherService :=
  steps.foldl step s

/-- The function `KeyIsValid_native`: `realkey->anyErrorCode == ERROR_SUCCESS`. -/
def KeyIsValid (s : WatcherService) (key : Nat) : Bool :=
  (s.watches key).anyErrorCode == ERROR_SUCCESS


/-! ## `addKey` -/

/-- What the system answers to the calls of `addKey`: the handle returned by
`CreateFile`, the event returned by `CreateEvent` in the constructor of the
watch, the handle returned by `CreateIoCompletionPort` (`0` is `NULL`) and the
result of `PostQueuedCompletionStatus`. -/
structure AddKeyAnswers where
  CreateFile : Nat
  CreateEvent : Nat
  CreateIoCompletionPort : Nat
  PostQueuedCompletionStatus : Bool
deriving DecidableEq, Repr

/-- The statement `delete watch`: the destructor calls `closeHandles`. -/
def deleteWatch (s : WatcherService) (watch : Nat) : WatcherService :=
  let c := (s.watches watch).closeHandles
  { s with watches := store s.watches watch c.1, trace := s.trace ++ c.2 }

/-- The method `addKey` up to its `WaitForSingleObject(addFileEvent, INFINITE)`,
for the service with port handle `port`, the new watch at `watch` and the
parameter block at `param`: the service afterwards, and whether the wait is
reached (otherwise `nullptr` is returned). -/
def addKeyPost (s : WatcherService) (port : Nat) (os : AddKeyAnswers)
    (watch param keyobject : Nat) : WatcherService × Bool :=
  if os.CreateFile = INVALID_HANDLE_VALUE then (s, false)
  else
    let fresh : DirectoryWatch :=
      { buffer := (s.watches watch).buffer, fileHandle := os.CreateFile,
        pollEvent := os.CreateEvent, anyErrorCode := ERROR_SUCCESS, keyObject := keyobject }
    let s1 := { s with watches := store s.watches watch fresh }
    let _fileport := os.CreateIoCompletionPort
    if port = 0 then (deleteWatch s1 watch, false)
    else
      let block : AddFileCallbackParam := { watch := watch, err := ERROR_ACCESS_DENIED }
      let s2 := { s1 with params := store s1.params param block }
      if os.PostQueuedCompletionStatus = false then (deleteWatch s2 watch, false)
      else (PostQueuedCompletionStatus s2 COMMAND_KEY_ADD_FILE param, true)

/-- The method `addKey` after its wait: the returned pointer, `0` for
`nullptr`. -/
def addKeyReturn (s : WatcherService) (watch param : Nat) : WatcherService × Nat :=
  if (s.params param).err ≠ ERROR_SUCCESS then (deleteWatch s watch, 0)
  else (s, watch)

/-- The method `addKey(filename, flags, keyobject)`; `rounds` are the rounds
that the event-loop thread makes while `addKey` waits for `addFileEvent`. -/
def addKey (s : WatcherService) (port : Nat) (os : AddKeyAnswers) (watch param keyobject : Nat)
    (rounds : List WaitResult) : WatcherService × Nat :=
  let a := addKeyPost s port os watch param keyobject
  if a.2 then addKeyReturn (rounds.foldl runThreadIteration a.1) watch param
  else (a.1, 0)

end Win32

/-! # Reference definitions and sample data -/

namespace MacOS

/-- The priority table of the specification on a flag word without overflow
bits: creation first, then the metadata, content, Finder-info, ownership and
attribute changes, then removal and rename, and `Overflow` for everything
else. -/
def priorityTable (ef : Nat) : Nat :=
  if ef &&& kFSEventStreamEventFlagItemCreated ≠ 0 then FLAG_EVENT_CREATE
  else if ef &&& kFSEventStreamEventFlagItemInodeMetaMod ≠ 0
      ∨ ef &&& kFSEventStreamEventFlagItemModified ≠ 0
      ∨ ef &&& kFSEventStreamEventFlagItemFinderInfoMod ≠ 0
      ∨ ef &&& kFSEventStreamEventFlagItemChangeOwner ≠ 0
      ∨ ef &&& kFSEventStreamEventFlagItemXattrMod ≠ 0 then FLAG_EVENT_MODIFY
  else if ef &&& kFSEventStreamEventFlagItemRemoved ≠ 0
      ∨ ef &&& kFSEventStreamEventFlagItemRenamed ≠ 0 then FLAG_EVENT_DELETE
  else FLAG_EVENT_OVERFLOW

/-- The calls of one round of the callback loop. -/
def roundCalls (key : WatchKey) (buf path : List Nat) (ef : Nat) : Option (List Event) :=
  (eventIteration key buf path ef).map Prod.snd

/-- A buffer of `BUFLEN` zero code units. -/
def zeroBuf : List Nat := List.replicate BUFLEN 0

/-- The code units of `/data`. -/
def pathData : List Nat := [47, 100, 97, 116, 97]

/-- The code units of `/data/app1`. -/
def pathApp1 : List Nat := [47, 100, 97, 116, 97, 47, 97, 112, 112, 49]

/-- The code units of `/data/app2/x`. -/
def pathApp2x : List Nat := [47, 100, 97, 116, 97, 47, 97, 112, 112, 50, 47, 120]

/-- The code units of `/data/a/b.txt`. -/
def pathDataAB : List Nat := [47, 100, 97, 116, 97, 47, 97, 47, 98, 46, 116, 120, 116]

end MacOS

namespace Win32

/-- A well-formed chain of records in a buffer, from byte offset `p`: each
record lies inside the buffer and leads to the next one by its non-zero
`NextEntryOffset`, and the last one has `NextEntryOffset = 0`. -/
def IsChain (buffer : Nat → FILE_NOTIFY_INFORMATION) : Nat → List FILE_NOTIFY_INFORMATION → Prop
  | _, [] => False
  | p, [r] => p < BUFFERSIZE ∧ buffer p = r ∧ r.NextEntryOffset = 0
  | p, r :: r2 :: rest =>
    p < BUFFERSIZE ∧ buffer p = r ∧ r.NextEntryOffset ≠ 0
      ∧ IsChain buffer (p + r.NextEntryOffset) (r2 :: rest)

instance IsChain.decidable (buffer : Nat → FILE_NOTIFY_INFORMATION) :
    ∀ (p : Nat) (records : List FILE_NOTIFY_INFORMATION), Decidable (IsChain buffer p records)
  | _, [] => inferInstanceAs (Decidable False)
  | p, [r] => inferInstanceAs (Decidable (p < BUFFERSIZE ∧ buffer p = r ∧ r.NextEntryOffset = 0))
  | p, r :: r2 :: rest =>
    have := IsChain.decidable buffer (p + r.NextEntryOffset) (r2 :: rest)
    inferInstanceAs (Decidable (p < BUFFERSIZE ∧ buffer p = r ∧ r.NextEntryOffset ≠ 0
      ∧ IsChain buffer (p + r.NextEntryOffset) (r2 :: rest)))

/-- The action to kind mapping of the specification: ADDED and
RENAMED_NEW_NAME give Created, MODIFIED gives Modified, REMOVED and
RENAMED_OLD_NAME give Deleted; no kind is given for another action code. -/
def kindOfAction (action : Nat) : Option Nat :=
  if action = FILE_ACTION_ADDED ∨ action = FILE_ACTION_RENAMED_NEW_NAME then some FLAG_EVENT_CREATE
  else if action = FILE_ACTION_MODIFIED then some FLAG_EVENT_MODIFY
  else if action = FILE_ACTION_REMOVED ∨ action = FILE_ACTION_RENAMED_OLD_NAME then
    some FLAG_EVENT_DELETE
  else none

/-- The normalized event of a record, by the specification: the kind of its
action with its file name of `FileNameLength / 2` code units. -/
def recordEvent (keyObject : Nat) (r : FILE_NOTIFY_INFORMATION) : Option Event :=
  (kindOfAction r.Action).map fun kind =>
    { keyObject := keyObject, flag := kind, path := some (r.FileName.take (r.FileNameLength / 2)) }

/-- How many of the coming `ReadDirectoryChangesW` calls fail with
`ERROR_NOTIFY_ENUM_DIR` before one ends otherwise. -/
def enumDirRetries : List (Option Nat) → Nat
  | some err :: rest => if err = ERROR_NOTIFY_ENUM_DIR then enumDirRetries rest + 1 else 0
  | _ => 0

/-- The loop of `handleCompletionEntries` as a plain count down: the round
for index `k - 1` first, the round for index `0` last. -/
def handleDown : Nat → WatcherService × Bool → WatcherService × Bool
  | 0, st => st
  | k + 1, st => handleDown k (handleIndex st k)

/-- The batch handling of the specification: the first `entriesremoved`
entries in the order the port reported them, entry `0` first. -/
def handleInReportedOrder (s : WatcherService) (entriesremoved : Nat) : WatcherService :=
  let r := (s.overlappedEntries.take entriesremoved).foldl handleEntry (s, false)
  if r.2 then executeExitThread r.1 0 else r.1

/-- The batch handling last entry first: the first `entriesremoved` entries
taken in the reverse of the order the port reported them, entry
`entriesremoved - 1` first and entry `0` last, and the exit, if one of them
asked for it, after all of them. -/
def handleInReverseOrder (s : WatcherService) (entriesremoved : Nat) : WatcherService :=
  let r := (s.overlappedEntries.take entriesremoved).reverse.foldl handleEntry (s, false)
  if r.2 then executeExitThread r.1 0 else r.1

/-- A record for the creation of the file `a`. -/
def recordAddedA : FILE_NOTIFY_INFORMATION :=
  { NextEntryOffset := 0, Action := FILE_ACTION_ADDED, FileNameLength := 2, FileName := [97] }

/-- A record with action code `6`, which is none of the five handled codes. -/
def recordAction6 : FILE_NOTIFY_INFORMATION :=
  { NextEntryOffset := 0, Action := 6, FileNameLength := 2, FileName := [97] }

/-- A record for a change of the file `b`. -/
def recordModifiedB : FILE_NOTIFY_INFORMATION :=
  { NextEntryOffset := 0, Action := FILE_ACTION_MODIFIED, FileNameLength := 2, FileName := [98] }

/-- A watch in good state whose buffer holds `record` at every offset. -/
def sampleWatch (keyObject : Nat) (record : FILE_NOTIFY_INFORMATION) : DirectoryWatch :=
  { buffer := fun _ => record, fileHandle := 500 + keyObject, pollEvent := 600 + keyObject,
    anyErrorCode := ERROR_SUCCESS, keyObject := keyObject }

/-- A running service with the watches at `100` (key object `7`, a record for
the created file `a` in its buffer) and `200` (key object `8`, a record for the
changed file `b`) registered, the port holding `port` and the coming
`ReadDirectoryChangesW` calls ending as `rdcw` says. -/
def sampleService (port : List OVERLAPPED_ENTRY) (rdcw : List (Option Nat)) : WatcherService :=
  { addedWatches := [100, 200]
    toDeleteWatches := []
    overlappedEntries := [default, default, default]
    pollEventNotifies := []
    env := 1
    addFileEvent := 50
    watches := fun p => if p = 200 then sampleWatch 8 recordModifiedB else sampleWatch 7 recordAddedA
    params := fun _ => { watch := 0, err := ERROR_ACCESS_DENIED }
    port := port
    rdcw := rdcw
    trace := []
    exited := none
    memoryFault := false }

/-- The completion of the read of the watch at `watch` with `bytes` bytes. -/
def completionOf (watch bytes : Nat) : OVERLAPPED_ENTRY :=
  { lpCompletionKey := watch, lpOverlapped := 1, dwNumberOfBytesTransferred := bytes }

/-- The command `COMMAND_KEY_REMOVE_FILE` for the watch at `watch`, as
`removeKey` posts it. -/
def removeCommand (watch : Nat) : OVERLAPPED_ENTRY :=
  { lpCompletionKey := watch, lpOverlapped := 0, dwNumberOfBytesTransferred := COMMAND_KEY_REMOVE_FILE }

/-- The service `sampleService [] []` after a wait that handed over two
completions, for the watch at `100` first and for the watch at `200`
second. -/
def sampleTwoCompletions : WatcherService :=
  { sampleService [] [] with
    overlappedEntries := [completionOf 100 16, completionOf 200 16, default] }

/-- The service `sampleService [] []` with a record of action code `6` in
the buffer of every watch. -/
def sampleServiceAction6 : WatcherService :=
  { sampleService [] [] with watches := fun _ => sampleWatch 7 recordAction6 }

/-- Every `notifyEvent` call of a trace has its path absent exactly when its
kind is `Overflow`. -/
def TraceOk (t : List Effect) : Prop :=
  ∀ e ∈ notifications t, PathIffKind e

/-- From `s` to `s2` the calls keep the form `TraceOk` and no watch in error
state returns to `ERROR_SUCCESS`. -/
def Preserves (s s2 : WatcherService) : Prop :=
  (TraceOk s.trace → TraceOk s2.trace) ∧
  (∀ w, (s.watches w).anyErrorCode ≠ ERROR_SUCCESS → (s2.watches w).anyErrorCode ≠ ERROR_SUCCESS)

/-- The service after a completion with data whose re-arm failed with
`ERROR_ACCESS_DENIED`: the watch at `100` is in error state. -/
def sampleFailedService : WatcherService :=
  rearm (sampleService [] [some ERROR_ACCESS_DENIED]) 100

/-- A run with an entry reaching the port, a round that handles it and a
failure of the wait. -/
def sampleSteps : List Step :=
  [Step.post { lpCompletionKey := 100, lpOverlapped := 1, dwNumberOfBytesTransferred := 0 },
   Step.wait (WaitResult.removed 1),
   Step.wait (WaitResult.failure ERROR_INVALID_HANDLE)]

end Win32

namespace Win32

/-- The entry is the command `COMMAND_KEY_EXIT`. -/
def isExitCommand (e : OVERLAPPED_ENTRY) : Bool :=
  e.lpOverlapped == 0 && e.dwNumberOfBytesTransferred == COMMAND_KEY_EXIT

/-- The command `COMMAND_KEY_EXIT`, as the destructor posts it. -/
def exitCommand : OVERLAPPED_ENTRY :=
  { lpCompletionKey := 0, lpOverlapped := 0, dwNumberOfBytesTransferred := COMMAND_KEY_EXIT }

/-- The command `COMMAND_KEY_POLL` for the watch at `watch`, as `poll` posts
it. -/
def pollCommand (watch : Nat) : OVERLAPPED_ENTRY :=
  { lpCompletionKey := watch, lpOverlapped := 0, dwNumberOfBytesTransferred := COMMAND_KEY_POLL }

/-- The marker `COMMAND_KEY_POLL_DONE` for the poll event `pollevent`, as the
case `COMMAND_KEY_POLL` posts it. -/
def pollDoneMarker (pollevent : Nat) : OVERLAPPED_ENTRY :=
  { lpCompletionKey := pollevent, lpOverlapped := 0,
    dwNumberOfBytesTransferred := COMMAND_KEY_POLL_DONE }

/-- The command `COMMAND_KEY_ADD_FILE` with the parameter block at `param`, as
`addKey` posts it. -/
def addCommand (param : Nat) : OVERLAPPED_ENTRY :=
  { lpCompletionKey := param, lpOverlapped := 0, dwNumberOfBytesTransferred := COMMAND_KEY_ADD_FILE }

end Win32

namespace Win32

/-- The service `sampleService [] []` after a wait that handed over a remove
command, an add command and a second remove command. -/
def sampleMixedBatch : WatcherService :=
  { sampleService [] [] with
    overlappedEntries := [removeCommand 100, addCommand 9, removeCommand 200] }

/-- The service `sampleService [] []` with a single slot in
`overlappedEntries`. -/
def sampleOneSlot : WatcherService :=
  { sampleService [] [] with overlappedEntries := [removeCommand 100] }

/-- The service `sampleService [] []` after a wait that handed over a poll
command for the watch at `100`, an exit command and a remove command for the
watch at `200`. -/
def sampleExitBatch : WatcherService :=
  { sampleService [] [] with
    overlappedEntries := [pollCommand 100, exitCommand, removeCommand 200] }

end Win32

namespace Win32

/-- The service `sampleService [] rdcw` with the parameter block of an add
command for the watch at `300` at address `9`. -/
def sampleAddService (rdcw : List (Option Nat)) : WatcherService :=
  { sampleService [] rdcw with params := fun _ => { watch := 300, err := ERROR_ACCESS_DENIED } }

end Win32

namespace MacOS

/-- The flag word has a bit of the creation group. -/
def hasCreation (ef : Nat) : Prop :=
  ef &&& kFSEventStreamEventFlagItemCreated ≠ 0

/-- The flag word has a bit of the modification group. -/
def hasModification (ef : Nat) : Prop :=
  ef &&& kFSEventStreamEventFlagItemInodeMetaMod ≠ 0
    ∨ ef &&& kFSEventStreamEventFlagItemModified ≠ 0
    ∨ ef &&& kFSEventStreamEventFlagItemFinderInfoMod ≠ 0
    ∨ ef &&& kFSEventStreamEventFlagItemChangeOwner ≠ 0
    ∨ ef &&& kFSEventStreamEventFlagItemXattrMod ≠ 0

/-- The flag word has a bit of the removal and rename group. -/
def hasRemoval (ef : Nat) : Prop :=
  ef &&& kFSEventStreamEventFlagItemRemoved ≠ 0 ∨ ef &&& kFSEventStreamEventFlagItemRenamed ≠ 0

/-- An ambiguous flag word: bits of more than one of the three groups. -/
def isAmbiguous (ef : Nat) : Prop :=
  (hasCreation ef ∧ hasModification ef) ∨ (hasCreation ef ∧ hasRemoval ef)
    ∨ (hasModification ef ∧ hasRemoval ef)

instance hasCreation.decidable (ef : Nat) : Decidable (hasCreation ef) := by
  unfold hasCreation; infer_instance

instance hasModification.decidable (ef : Nat) : Decidable (hasModification ef) := by
  unfold hasModification; infer_instance

instance hasRemoval.decidable (ef : Nat) : Decidable (hasRemoval ef) := by
  unfold hasRemoval; infer_instance

instance isAmbiguous.decidable (ef : Nat) : Decidable (isAmbiguous ef) := by
  unfold isAmbiguous; infer_instance

end MacOS

namespace Win32

/-- The state of the walk of a batch of `n` entries when it reaches index
`j`: the entries behind it, `n - 1` down to `j + 1`, have been handled. -/
def walkBefore (s : WatcherService) (n j : Nat) : WatcherService × Bool :=
  ((s.overlappedEntries.take n).drop (j + 1)).reverse.foldl handleEntry (s, false)

/-- The rest of the walk of a batch from index `j - 1` down to `0`, on the
entries the wait stored in `s`, followed by the exit when it was asked for. -/
def walkAhead (s : WatcherService) (j : Nat) (st : WatcherService × Bool) : WatcherService :=
  let r := (s.overlappedEntries.take j).reverse.foldl handleEntry st
  if r.2 then executeExitThread r.1 0 else r.1

/-- How many entries a wait of the loop of `runThread` hands over when the
system offers up to `count`. -/
def batchSize (s : WatcherService) (count : Nat) : Nat :=
  min count (min s.overlappedEntries.length s.port.length)

/-- The service when the wait has handed over the `k` oldest entries of the
port into the first slots of `overlappedEntries`. -/
def afterWait (s : WatcherService) (k : Nat) : WatcherService :=
  { s with overlappedEntries := s.port.take k ++ s.overlappedEntries.drop k
           port := s.port.drop k }

/-- The state of a round of `runThread` when the walk of its batch reaches
index `j`: the wait has handed over the batch and the entries behind index `j`
have been handled. -/
def roundBefore (s : WatcherService) (count j : Nat) : WatcherService × Bool :=
  walkBefore (afterWait s (batchSize s count)) (batchSize s count) j

end Win32

namespace Win32

/-- The service `sampleService` with a completion with data for the watch at
`100` and, behind it, the poll command for that watch in the port. -/
def samplePollQueue : WatcherService :=
  sampleService [completionOf 100 16, pollCommand 100] []

end Win32

/-! # Properties of the macOS callback -/

namespace MacOS

theorem lor_eq_zero_iff (x y : Nat) : x ||| y = 0 ↔ x = 0 ∧ y = 0 := by
  constructor
  · intro h
    have hb : ∀ i, (x.testBit i || y.testBit i) = false := by
      intro i
      rw [← Nat.testBit_or, h, Nat.zero_testBit]
    constructor
    · apply Nat.eq_of_testBit_eq
      intro i
      have := hb i
      simp only [Bool.or_eq_false_iff] at this
      simp [this.1]
    · apply Nat.eq_of_testBit_eq
      intro i
      have := hb i
      simp only [Bool.or_eq_false_iff] at this
      simp [this.2]
  · rintro ⟨rfl, rfl⟩
    simp

theorem land_lor_ne_zero_iff (x a b : Nat) :
    x &&& (a ||| b) ≠ 0 ↔ x &&& a ≠ 0 ∨ x &&& b ≠ 0 := by
  rw [Nat.and_or_distrib_left, Ne, lor_eq_zero_iff]
  tauto

theorem toBytes_append (xs ys : List Nat) : toBytes (xs ++ ys) = toBytes xs ++ toBytes ys := by
  induction xs with
  | nil => rfl
  | cons u us ih => simp [toBytes, ih]

theorem length_toBytes (xs : List Nat) : (toBytes xs).length = 2 * xs.length := by
  induction xs with
  | nil => rfl
  | cons u us ih => simp [toBytes, unitBytes, ih]; omega

theorem memcmp_append_right (a b c : List Nat) (n : Nat) (h : n ≤ b.length) :
    memcmp a (b ++ c) n = memcmp a b n := by
  induction a generalizing b n with
  | nil => cases n <;> simp [memcmp]
  | cons x xs ih =>
    cases n with
    | zero => simp [memcmp]
    | succ n =>
      cases b with
      | nil => simp at h
      | cons y ys =>
        have hn : n ≤ ys.length := by simpa using h
        have hi := ih ys n hn
        simp only [List.cons_append, memcmp, List.append_eq, hi]

theorem memcmp_self_append (a c : List Nat) (n : Nat) : memcmp a (a ++ c) n = 0 := by
  induction a generalizing n with
  | nil => cases n <;> cases c <;> simp [memcmp]
  | cons x xs ih =>
    cases n with
    | zero => simp [memcmp]
    | succ n => simp [memcmp, ih]

/-- The path checks read the buffer only where the path of the event was
stored. -/
theorem relativePart_append (key : WatchKey) (path rest : List Nat) :
    relativePart key (path ++ rest) path.length = relativePart key path path.length := by
  unfold relativePart
  by_cases h1 : path.length < key.pathLen
  · simp [h1]
  · have h2 : key.pathLen ≤ (toBytes path).length := by
      rw [length_toBytes]; omega
    rw [toBytes_append, memcmp_append_right _ _ _ _ h2]
    by_cases h3 : path.length = key.pathLen
    · simp [h3]
    · have h4 : key.pathLen < path.length := by omega
      rw [List.getD_append _ _ _ _ h4]

/-- What `relativePart` returns lies inside the path of the event. -/
theorem relativePart_bound (key : WatchKey) (buf : List Nat) (len off n : Nat)
    (h : relativePart key buf len = some (off, n)) : off + n ≤ len := by
  unfold relativePart at h
  split at h
  · simp at h
  · split at h
    · simp at h
    · split at h
      · simp only [Option.some.injEq, Prod.mk.injEq] at h; omega
      · split at h
        · simp only [Option.some.injEq, Prod.mk.injEq] at h; omega
        · split at h
          · simp at h
          · simp only [Option.some.injEq, Prod.mk.injEq] at h; omega

theorem NewString_append (path rest : List Nat) (off n : Nat) (h : off + n ≤ path.length) :
    NewString (path ++ rest) off n = NewString path off n := by
  unfold NewString
  rw [List.drop_append_of_le_length (by omega)]
  rw [List.take_append_of_le_length (by simp; omega)]

/-- The calls of one loop round do not depend on what the buffer held
before. -/
theorem roundCalls_buffer (key : WatchKey) (buf path : List Nat) (ef : Nat)
    (h : path.length ≤ buf.length) :
    roundCalls key buf path ef = roundCalls key path path ef := by
  unfold roundCalls eventIteration CFStringGetCharacters
  simp only [h, le_refl, if_true, List.drop_length, List.append_nil]
  rw [relativePart_append]
  cases hr : relativePart key path path.length with
  | none => rfl
  | some r =>
    obtain ⟨off, n⟩ := r
    have hb := relativePart_bound key path path.length off n hr
    cases notifyeventflag ef with
    | none => rfl
    | some flag => simp [NewString_append _ _ _ _ hb]

theorem length_zeroBuf : zeroBuf.length = BUFLEN := by
  simp [zeroBuf]

theorem roundCalls_self (key : WatchKey) (path : List Nat) (ef : Nat) :
    roundCalls key path path ef =
      some (match relativePart key path path.length with
        | none => [key.notifyOverflow]
        | some (off, n) =>
          match notifyeventflag ef with
          | none => [key.notifyOverflow]
          | some flag => [{ keyObject := key.keyObject, flag := flag,
                            path := some (NewString path off n) }]) := by
  unfold roundCalls eventIteration CFStringGetCharacters
  simp only [le_refl, if_true, List.drop_length, List.append_nil]
  cases relativePart key path path.length with
  | none => rfl
  | some r =>
    obtain ⟨off, n⟩ := r
    cases notifyeventflag ef <;> rfl

theorem notifyeventflag_overflow (ef : Nat)
    (h : ef &&& kFSEventStreamEventFlagUserDropped ≠ 0
      ∨ ef &&& kFSEventStreamEventFlagKernelDropped ≠ 0
      ∨ ef &&& kFSEventStreamEventFlagMustScanSubDirs ≠ 0
      ∨ ef &&& kFSEventStreamEventFlagRootChanged ≠ 0) :
    notifyeventflag ef = none := by
  unfold notifyeventflag
  by_cases h1 : ef &&& (kFSEventStreamEventFlagUserDropped ||| kFSEventStreamEventFlagKernelDropped
      ||| kFSEventStreamEventFlagMustScanSubDirs) ≠ 0
  · rw [if_pos h1]
  · rw [if_neg h1]
    have h2 : ef &&& kFSEventStreamEventFlagRootChanged ≠ 0 := by
      rcases h with h | h | h | h
      · exact absurd ((land_lor_ne_zero_iff _ _ _).2 (Or.inl ((land_lor_ne_zero_iff _ _ _).2 (Or.inl h)))) h1
      · exact absurd ((land_lor_ne_zero_iff _ _ _).2 (Or.inl ((land_lor_ne_zero_iff _ _ _).2 (Or.inr h)))) h1
      · exact absurd ((land_lor_ne_zero_iff _ _ _).2 (Or.inr h)) h1
      · exact h
    rw [if_pos h2]

theorem notifyeventflag_table (ef : Nat)
    (h1 : ef &&& kFSEventStreamEventFlagUserDropped = 0)
    (h2 : ef &&& kFSEventStreamEventFlagKernelDropped = 0)
    (h3 : ef &&& kFSEventStreamEventFlagMustScanSubDirs = 0)
    (h4 : ef &&& kFSEventStreamEventFlagRootChanged = 0) :
    notifyeventflag ef =
      if priorityTable ef = FLAG_EVENT_OVERFLOW then none else some (priorityTable ef) := by
  have hd : ¬ ef &&& (kFSEventStreamEventFlagUserDropped ||| kFSEventStreamEventFlagKernelDropped
      ||| kFSEventStreamEventFlagMustScanSubDirs) ≠ 0 := by
    rw [land_lor_ne_zero_iff, land_lor_ne_zero_iff]
    simp [h1, h2, h3]
  unfold notifyeventflag priorityTable
  rw [if_neg hd, if_neg (by simp [h4])]
  simp only [land_lor_ne_zero_iff, or_assoc]
  split
  · simp [FLAG_EVENT_CREATE, FLAG_EVENT_OVERFLOW]
  · split
    · simp [FLAG_EVENT_MODIFY, FLAG_EVENT_OVERFLOW]
    · split
      · simp [FLAG_EVENT_DELETE, FLAG_EVENT_OVERFLOW]
      · simp

end MacOS

/-! # The macOS translator: claims -/

namespace MacOS

theorem rootInstall_new (keyobj : Nat) (W : List Nat) :
    (WatchKey.new keyobj W).rootInstall = true ↔ W = [SLASH] := by
  unfold WatchKey.new
  cases W with
  | nil => simp
  | cons a t =>
    cases t with
    | nil => simp [List.getD]
    | cons b u => simp

/-- C1 (the code departs from the claim): the watch on `/data/app1` gets the
raw path `/data/app2/x` with `ItemCreated`.  The watched path is not a prefix
of the raw path, yet `memcmp` is given `pathLen` as a byte count and compares
only the first five code units, so the round reports `Created` with relative
path `x` and not `Overflow`. -/
theorem C1_prefix_test_compares_half_the_units :
    ¬ (pathApp1 <+: pathApp2x) ∧ pathApp2x.length ≤ BUFLEN ∧
    roundCalls (WatchKey.new 7 pathApp1) zeroBuf pathApp2x kFSEventStreamEventFlagItemCreated
      = some [{ keyObject := 7, flag := FLAG_EVENT_CREATE, path := some [120] }] := by
  refine ⟨by decide, by decide, ?_⟩
  rw [roundCalls_buffer _ _ _ _ (by rw [length_zeroBuf]; decide)]
  decide

/-- C4: when the raw path passes the prefix and separator checks and the flag
word has none of the bits UserDropped, KernelDropped, MustScanSubDirs,
RootChanged, the round makes exactly one call, and its kind is the one of the
priority table: Created, else Modified, else Deleted, else Overflow.  A
specific kind carries the relative path, Overflow carries none. -/
theorem C4_kind_follows_priority_table (keyobj : Nat) (W buf P : List Nat) (ef off n : Nat)
    (hbuf : buf.length = BUFLEN) (hP : P.length ≤ BUFLEN)
    (hpath : relativePart (WatchKey.new keyobj W) P P.length = some (off, n))
    (h1 : ef &&& kFSEventStreamEventFlagUserDropped = 0)
    (h2 : ef &&& kFSEventStreamEventFlagKernelDropped = 0)
    (h3 : ef &&& kFSEventStreamEventFlagMustScanSubDirs = 0)
    (h4 : ef &&& kFSEventStreamEventFlagRootChanged = 0) :
    roundCalls (WatchKey.new keyobj W) buf P ef =
      some [{ keyObject := keyobj, flag := priorityTable ef,
              path := if priorityTable ef = FLAG_EVENT_OVERFLOW then none
                      else some (NewString P off n) }] := by
  rw [roundCalls_buffer _ _ _ _ (by omega), roundCalls_self, hpath,
    notifyeventflag_table ef h1 h2 h3 h4]
  by_cases h : priorityTable ef = FLAG_EVENT_OVERFLOW
  · simp [h, WatchKey.notifyOverflow, WatchKey.new]
  · simp [h, WatchKey.new]

/-- C4 at the watch on `/data`, the raw path `/data/a/b.txt` and the flags
`ItemCreated`, `ItemRemoved`, `ItemModified` together. -/
theorem C4_kind_follows_priority_table_witness :
    zeroBuf.length = BUFLEN ∧ pathDataAB.length ≤ BUFLEN ∧
    relativePart (WatchKey.new 7 pathData) pathDataAB pathDataAB.length = some (6, 7) ∧
    roundCalls (WatchKey.new 7 pathData) zeroBuf pathDataAB 0x1300 =
      some [{ keyObject := 7, flag := priorityTable 0x1300,
              path := if priorityTable 0x1300 = FLAG_EVENT_OVERFLOW then none
                      else some (NewString pathDataAB 6 7) }] :=
  ⟨length_zeroBuf, by decide, by decide,
    C4_kind_follows_priority_table 7 pathData zeroBuf pathDataAB 0x1300 6 7 length_zeroBuf
      (by decide) (by decide) (by decide) (by decide) (by decide) (by decide)⟩

/-- C5: for a flag word that classifies to Created, Modified or Deleted, the
reported relative path is empty when the raw path equals the watched path, is
`R` when the watched path `W` is not `/` and the raw path is `W ++ "/" ++ R`,
and is `R` when the watched path is `/` and the raw path is `"/" ++ R` with `R`
non-empty. -/
theorem C5_relative_path (keyobj : Nat) (W R buf : List Nat) (ef flag : Nat)
    (hbuf : buf.length = BUFLEN) (hflag : notifyeventflag ef = some flag) :
    (W.length ≤ BUFLEN →
      roundCalls (WatchKey.new keyobj W) buf W ef
        = some [{ keyObject := keyobj, flag := flag, path := some [] }]) ∧
    (W ≠ [SLASH] → (W ++ SLASH :: R).length ≤ BUFLEN →
      roundCalls (WatchKey.new keyobj W) buf (W ++ SLASH :: R) ef
        = some [{ keyObject := keyobj, flag := flag, path := some R }]) ∧
    (R ≠ [] → (SLASH :: R).length ≤ BUFLEN →
      roundCalls (WatchKey.new keyobj [SLASH]) buf (SLASH :: R) ef
        = some [{ keyObject := keyobj, flag := flag, path := some R }]) := by
  refine ⟨?_, ?_, ?_⟩
  · intro hW
    have hk1 : (WatchKey.new keyobj W).pathLen = W.length := rfl
    have hk2 : (WatchKey.new keyobj W).keyPath = W := rfl
    have hr : relativePart (WatchKey.new keyobj W) W W.length = some (0, 0) := by
      have hm := memcmp_self_append (toBytes W) [] W.length
      rw [List.append_nil] at hm
      unfold relativePart
      rw [hk1, hk2, hm]
      simp
    rw [roundCalls_buffer _ _ _ _ (by omega), roundCalls_self, hr]
    simp [hflag, NewString, WatchKey.new]
  · intro hne hlen
    have hk1 : (WatchKey.new keyobj W).pathLen = W.length := rfl
    have hk2 : (WatchKey.new keyobj W).keyPath = W := rfl
    have hroot : (WatchKey.new keyobj W).rootInstall = false := by
      cases h : (WatchKey.new keyobj W).rootInstall with
      | false => rfl
      | true => exact absurd ((rootInstall_new keyobj W).1 h) hne
    have hr : relativePart (WatchKey.new keyobj W) (W ++ SLASH :: R) (W ++ SLASH :: R).length
        = some (W.length + 1, R.length) := by
      have hg : (W ++ SLASH :: R).getD W.length 0 = SLASH := by
        rw [List.getD_append_right _ _ _ _ (le_refl _)]
        simp
      unfold relativePart
      rw [hroot, hk1, hk2, toBytes_append, memcmp_self_append, hg]
      have h1 : ¬ (W ++ SLASH :: R).length < W.length := by simp
      have h2 : ¬ (W ++ SLASH :: R).length = W.length := by simp
      have h3 : (W ++ SLASH :: R).length - W.length - 1 = R.length := by simp
      rw [if_neg h1, if_neg (by simp), if_neg h2, if_neg (by simp), if_neg (by simp), h3]
    rw [roundCalls_buffer _ _ _ _ (by omega), roundCalls_self, hr]
    simp [hflag, NewString, WatchKey.new]
  · intro hne hlen
    have hk1 : (WatchKey.new keyobj [SLASH]).pathLen = 1 := rfl
    have hk2 : (WatchKey.new keyobj [SLASH]).keyPath = [SLASH] := rfl
    have hroot : (WatchKey.new keyobj [SLASH]).rootInstall = true :=
      (rootInstall_new keyobj [SLASH]).2 rfl
    have hR : 0 < R.length := List.length_pos.2 hne
    have hr : relativePart (WatchKey.new keyobj [SLASH]) (SLASH :: R) (SLASH :: R).length
        = some (1, R.length) := by
      have hm : memcmp (toBytes [SLASH]) (toBytes (SLASH :: R)) 1 = 0 := by
        simp [toBytes, unitBytes, memcmp]
      unfold relativePart
      rw [hroot, hk1, hk2, hm]
      have h1 : ¬ (SLASH :: R).length < 1 := by simp
      have h2 : ¬ (SLASH :: R).length = 1 := by
        rw [List.length_cons]; omega
      have h3 : (SLASH :: R).length - 1 = R.length := by simp
      rw [if_neg h1, if_neg (by simp), if_neg h2, if_pos rfl, h3]
    rw [roundCalls_buffer _ _ _ _ (by omega), roundCalls_self, hr]
    simp [hflag, NewString, WatchKey.new]

/-- C5 at the watch on `/data` and at the watch on `/`, for `ItemCreated`. -/
theorem C5_relative_path_witness :
    zeroBuf.length = BUFLEN ∧
    notifyeventflag kFSEventStreamEventFlagItemCreated = some FLAG_EVENT_CREATE ∧
    roundCalls (WatchKey.new 7 pathData) zeroBuf pathData kFSEventStreamEventFlagItemCreated
        = some [{ keyObject := 7, flag := FLAG_EVENT_CREATE, path := some [] }] ∧
    roundCalls (WatchKey.new 7 pathData) zeroBuf (pathData ++ SLASH :: [97])
          kFSEventStreamEventFlagItemCreated
        = some [{ keyObject := 7, flag := FLAG_EVENT_CREATE, path := some [97] }] ∧
    roundCalls (WatchKey.new 7 [SLASH]) zeroBuf (SLASH :: [97])
          kFSEventStreamEventFlagItemCreated
        = some [{ keyObject := 7, flag := FLAG_EVENT_CREATE, path := some [97] }] :=
  ⟨length_zeroBuf, by decide,
    (C5_relative_path 7 pathData [97] zeroBuf kFSEventStreamEventFlagItemCreated FLAG_EVENT_CREATE
      length_zeroBuf (by decide)).1 (by decide),
    (C5_relative_path 7 pathData [97] zeroBuf kFSEventStreamEventFlagItemCreated FLAG_EVENT_CREATE
      length_zeroBuf (by decide)).2.1 (by decide) (by decide),
    (C5_relative_path 7 pathData [97] zeroBuf kFSEventStreamEventFlagItemCreated FLAG_EVENT_CREATE
      length_zeroBuf (by decide)).2.2 (by decide) (by decide)⟩

/-- C8: a raw event whose flag word has any of UserDropped, KernelDropped,
MustScanSubDirs or RootChanged makes exactly one call, `Overflow` without a
path, for every reported path and whatever the other flag bits are. -/
theorem C8_overflow_flags_give_overflow (keyobj : Nat) (W buf P : List Nat) (ef : Nat)
    (hbuf : buf.length = BUFLEN) (hP : P.length ≤ BUFLEN)
    (hflag : ef &&& kFSEventStreamEventFlagUserDropped ≠ 0
      ∨ ef &&& kFSEventStreamEventFlagKernelDropped ≠ 0
      ∨ ef &&& kFSEventStreamEventFlagMustScanSubDirs ≠ 0
      ∨ ef &&& kFSEventStreamEventFlagRootChanged ≠ 0) :
    roundCalls (WatchKey.new keyobj W) buf P ef
      = some [{ keyObject := keyobj, flag := FLAG_EVENT_OVERFLOW, path := none }] := by
  rw [roundCalls_buffer _ _ _ _ (by omega), roundCalls_self, notifyeventflag_overflow ef hflag]
  cases relativePart (WatchKey.new keyobj W) P P.length with
  | none => simp [WatchKey.notifyOverflow, WatchKey.new]
  | some r => simp [WatchKey.notifyOverflow, WatchKey.new]

/-- C8 at the watch on `/data`, the raw path `/data/a/b.txt` and the flags
`RootChanged` and `ItemCreated` together. -/
theorem C8_overflow_flags_give_overflow_witness :
    zeroBuf.length = BUFLEN ∧ pathDataAB.length ≤ BUFLEN ∧
    (0x120 &&& kFSEventStreamEventFlagUserDropped ≠ 0
      ∨ 0x120 &&& kFSEventStreamEventFlagKernelDropped ≠ 0
      ∨ 0x120 &&& kFSEventStreamEventFlagMustScanSubDirs ≠ 0
      ∨ 0x120 &&& kFSEventStreamEventFlagRootChanged ≠ 0) ∧
    roundCalls (WatchKey.new 7 pathData) zeroBuf pathDataAB 0x120
      = some [{ keyObject := 7, flag := FLAG_EVENT_OVERFLOW, path := none }] :=
  ⟨length_zeroBuf, by decide, by decide,
    C8_overflow_flags_give_overflow 7 pathData zeroBuf pathDataAB 0x120 length_zeroBuf
      (by decide) (by decide)⟩

end MacOS

/-! # Properties of the Windows event loop -/

namespace Win32

theorem notifications_append (a b : List Effect) :
    notifications (a ++ b) = notifications a ++ notifications b := by
  induction a with
  | nil => rfl
  | cons x xs ih => cases x <;> simp [notifications, ih]

theorem notifications_map_notify (es : List Event) :
    notifications (es.map Effect.notify) = es := by
  induction es with
  | nil => rfl
  | cons x xs ih => simp [notifications, ih]

theorem notifications_closeHandles (w : DirectoryWatch) : notifications w.closeHandles.2 = [] := by
  unfold DirectoryWatch.closeHandles
  by_cases h1 : w.fileHandle = INVALID_HANDLE_VALUE <;> by_cases h2 : w.pollEvent = 0 <;>
    simp [h1, h2, notifications]

theorem anyErrorCode_closeHandles (w : DirectoryWatch) :
    w.closeHandles.1.anyErrorCode = w.anyErrorCode := by
  unfold DirectoryWatch.closeHandles
  by_cases h1 : w.fileHandle = INVALID_HANDLE_VALUE <;> by_cases h2 : w.pollEvent = 0 <;>
    simp [h1, h2]

theorem keyObject_closeHandles (w : DirectoryWatch) :
    w.closeHandles.1.keyObject = w.keyObject := by
  unfold DirectoryWatch.closeHandles
  by_cases h1 : w.fileHandle = INVALID_HANDLE_VALUE <;> by_cases h2 : w.pollEvent = 0 <;>
    simp [h1, h2]

/-- The `notifyEvent` calls of a re-arm: one `Overflow` for each
`ERROR_NOTIFY_ENUM_DIR` answer. -/
theorem notifications_readDirectoryChangesLoop (fileHandle keyObject : Nat)
    (rdcw : List (Option Nat)) :
    notifications (readDirectoryChangesLoop fileHandle keyObject rdcw).1
      = List.replicate (enumDirRetries rdcw) (overflowEvent keyObject) := by
  induction rdcw with
  | nil => rfl
  | cons r rest ih =>
    cases r with
    | none => rfl
    | some err =>
      by_cases h : err = ERROR_NOTIFY_ENUM_DIR
      · simp [readDirectoryChangesLoop, enumDirRetries, h, notifications, ih, List.replicate_succ]
      · simp [readDirectoryChangesLoop, enumDirRetries, h, notifications]

/-- A re-arm never returns `ERROR_NOTIFY_ENUM_DIR`. -/
theorem readDirectoryChangesLoop_ne_enumDir (fileHandle keyObject : Nat)
    (rdcw : List (Option Nat)) :
    (readDirectoryChangesLoop fileHandle keyObject rdcw).2.1 ≠ ERROR_NOTIFY_ENUM_DIR := by
  induction rdcw with
  | nil => simp [readDirectoryChangesLoop, ERROR_SUCCESS, ERROR_NOTIFY_ENUM_DIR]
  | cons r rest ih =>
    cases r with
    | none => simp [readDirectoryChangesLoop, ERROR_SUCCESS, ERROR_NOTIFY_ENUM_DIR]
    | some err =>
      by_cases h : err = ERROR_NOTIFY_ENUM_DIR
      · simpa [readDirectoryChangesLoop, h] using ih
      · simp [readDirectoryChangesLoop, h]

theorem actionEvents_eq_recordEvent (keyObject : Nat) (r : FILE_NOTIFY_INFORMATION) :
    actionEvents keyObject r = (recordEvent keyObject r).toList := by
  unfold actionEvents recordEvent kindOfAction
  by_cases h3 : r.Action = FILE_ACTION_MODIFIED
  · simp [h3, FILE_ACTION_MODIFIED, FILE_ACTION_ADDED, FILE_ACTION_RENAMED_NEW_NAME]
  · by_cases h1 : r.Action = FILE_ACTION_ADDED ∨ r.Action = FILE_ACTION_RENAMED_NEW_NAME
    · simp [h3, h1]
    · by_cases h2 : r.Action = FILE_ACTION_REMOVED ∨ r.Action = FILE_ACTION_RENAMED_OLD_NAME
      · simp [h3, h1, h2]
      · simp [h3, h1, h2]

/-- On a well-formed chain the record loop ends by itself, within the bound
on its rounds, and makes the calls of the records in buffer order. -/
theorem notifyLoop_chain (keyObject : Nat) (buffer : Nat → FILE_NOTIFY_INFORMATION)
    (records : List FILE_NOTIFY_INFORMATION) :
    ∀ (p fuel : Nat), IsChain buffer p records → BUFFERSIZE - p ≤ fuel →
      notifyLoop keyObject buffer fuel p = records.filterMap (recordEvent keyObject) := by
  induction records with
  | nil => intro p fuel h; exact absurd h (by simp [IsChain])
  | cons r rest ih =>
    intro p fuel h hf
    cases rest with
    | nil =>
      obtain ⟨hp, hb, hz⟩ := h
      cases fuel with
      | zero => omega
      | succ f =>
        simp only [notifyLoop, hb, hz, if_true, List.append_nil, actionEvents_eq_recordEvent]
        cases hre : recordEvent keyObject r <;> simp [List.filterMap_cons, hre]
    | cons r2 rest2 =>
      obtain ⟨hp, hb, hnz, hc⟩ := h
      cases fuel with
      | zero => omega
      | succ f =>
        have hi := ih (p + r.NextEntryOffset) f hc (by omega)
        simp only [notifyLoop, hb, hnz, if_false, hi, actionEvents_eq_recordEvent]
        cases hre : recordEvent keyObject r <;> simp [List.filterMap_cons, hre]

theorem notifications_rearm (s : WatcherService) (watch : Nat) :
    notifications (rearm s watch).trace = notifications s.trace
      ++ List.replicate (enumDirRetries s.rdcw) (overflowEvent (s.watches watch).keyObject) := by
  unfold rearm readDirectoryChanges
  dsimp only
  split_ifs <;> simp [notifications_append, notifications_readDirectoryChangesLoop]

theorem notifications_handleNotifyInformations_data (s : WatcherService) (watch bytes : Nat)
    (hb : bytes > 0) :
    notifications (handleNotifyInformations s watch bytes).trace = notifications s.trace
      ++ notifyLoop (s.watches watch).keyObject (s.watches watch).buffer BUFFERSIZE 0
      ++ List.replicate (enumDirRetries s.rdcw) (overflowEvent (s.watches watch).keyObject) := by
  unfold handleNotifyInformations
  rw [if_pos hb]
  simp [notifications_rearm, notifications_append, notifications_map_notify]

end Win32

/-! # The Windows record decoding: claims -/

namespace Win32

/-- C6 (as stated it fails): a well-formed chain of one record with action
code `6` gives no call at all, and a chain of one `ADDED` record whose re-arm
meets `ERROR_NOTIFY_ENUM_DIR` once gives two calls, the `Created` one and an
`Overflow`; in neither case is there exactly one call for the one record. -/
theorem C6_not_one_event_per_record :
    (IsChain (sampleServiceAction6.watches 100).buffer 0 [recordAction6] ∧
      notifications (handleNotifyInformations sampleServiceAction6 100 16).trace = []) ∧
    (IsChain ((sampleService [] [some ERROR_NOTIFY_ENUM_DIR]).watches 100).buffer 0 [recordAddedA] ∧
      notifications
          (handleNotifyInformations (sampleService [] [some ERROR_NOTIFY_ENUM_DIR]) 100 16).trace
        = [{ keyObject := 7, flag := FLAG_EVENT_CREATE, path := some [97] },
           { keyObject := 7, flag := FLAG_EVENT_OVERFLOW, path := none }]) := by
  refine ⟨⟨by decide, by decide⟩, ⟨by decide, by decide⟩⟩

/-- C6 (amended): for a completion with bytes transferred and a buffer that
is a well-formed chain of records, `handleNotifyInformations` makes, in buffer
order, one call for each record whose action is one of the five handled codes,
with the kind of the action and the file name of `FileNameLength / 2` code
units; a record with another action code gives no call; after these calls the
re-arm makes one `Overflow` call for each `ERROR_NOTIFY_ENUM_DIR` answer. -/
theorem C6_records_in_buffer_order (s : WatcherService) (watch bytes : Nat)
    (records : List FILE_NOTIFY_INFORMATION) (hb : bytes > 0)
    (hc : IsChain (s.watches watch).buffer 0 records) :
    notifications (handleNotifyInformations s watch bytes).trace
      = notifications s.trace
        ++ records.filterMap (recordEvent (s.watches watch).keyObject)
        ++ List.replicate (enumDirRetries s.rdcw) (overflowEvent (s.watches watch).keyObject) := by
  rw [notifications_handleNotifyInformations_data s watch bytes hb,
    notifyLoop_chain _ _ records 0 BUFFERSIZE hc (by omega)]

/-- C6 at a buffer with one `ADDED` record and a re-arm that succeeds. -/
theorem C6_records_in_buffer_order_witness :
    16 > 0 ∧ IsChain ((sampleService [] []).watches 100).buffer 0 [recordAddedA] ∧
    notifications (handleNotifyInformations (sampleService [] []) 100 16).trace
      = notifications (sampleService [] []).trace
        ++ [recordAddedA].filterMap (recordEvent ((sampleService [] []).watches 100).keyObject)
        ++ List.replicate (enumDirRetries (sampleService [] []).rdcw)
            (overflowEvent ((sampleService [] []).watches 100).keyObject) :=
  ⟨by decide, by decide,
    C6_records_in_buffer_order (sampleService [] []) 100 16 [recordAddedA] (by decide) (by decide)⟩

end Win32

/-! # What every step of the Windows loop keeps -/

namespace Win32

theorem traceOk_append (a b : List Effect) : TraceOk (a ++ b) ↔ TraceOk a ∧ TraceOk b := by
  unfold TraceOk
  rw [notifications_append]
  simp only [List.mem_append]
  constructor
  · intro h
    exact ⟨fun e he => h e (Or.inl he), fun e he => h e (Or.inr he)⟩
  · rintro ⟨h1, h2⟩ e (he | he)
    · exact h1 e he
    · exact h2 e he

theorem traceOk_of_notifications_nil (t : List Effect) (h : notifications t = []) : TraceOk t := by
  unfold TraceOk
  rw [h]
  intro e he
  cases he

theorem pathIffKind_overflowEvent (k : Nat) : PathIffKind (overflowEvent k) := by
  simp [PathIffKind, overflowEvent]

theorem pathIffKind_actionEvents (k : Nat) (info : FILE_NOTIFY_INFORMATION) (e : Event)
    (he : e ∈ actionEvents k info) : PathIffKind e := by
  unfold actionEvents at he
  split_ifs at he <;> simp at he <;> subst he <;>
    simp [PathIffKind, FLAG_EVENT_OVERFLOW, FLAG_EVENT_MODIFY, FLAG_EVENT_CREATE, FLAG_EVENT_DELETE]

theorem pathIffKind_notifyLoop (k : Nat) (buffer : Nat → FILE_NOTIFY_INFORMATION) :
    ∀ (fuel p : Nat) (e : Event), e ∈ notifyLoop k buffer fuel p → PathIffKind e := by
  intro fuel
  induction fuel with
  | zero => intro p e he; simp [notifyLoop] at he
  | succ f ih =>
    intro p e he
    simp only [notifyLoop, List.mem_append] at he
    rcases he with he | he
    · exact pathIffKind_actionEvents k _ e he
    · split_ifs at he
      · simp at he
      · exact ih _ e he

theorem traceOk_readDirectoryChangesLoop (fileHandle keyObject : Nat) (rdcw : List (Option Nat)) :
    TraceOk (readDirectoryChangesLoop fileHandle keyObject rdcw).1 := by
  unfold TraceOk
  rw [notifications_readDirectoryChangesLoop]
  intro e he
  rw [List.eq_of_mem_replicate he]
  exact pathIffKind_overflowEvent _

theorem notifications_map_SetEvent (hs : List Nat) :
    notifications (hs.map Effect.SetEvent) = [] := by
  induction hs with
  | nil => rfl
  | cons x xs ih => simp [notifications, ih]

theorem Preserves.refl (s : WatcherService) : Preserves s s :=
  ⟨fun h => h, fun _ h => h⟩

theorem Preserves.trans {a b c : WatcherService} (h1 : Preserves a b) (h2 : Preserves b c) :
    Preserves a c :=
  ⟨fun h => h2.1 (h1.1 h), fun w h => h2.2 w (h1.2 w h)⟩

/-- A step that appends well-formed calls and changes no error code, or only
to codes other than `ERROR_SUCCESS`, is preserving. -/
theorem preserves_of (s s2 : WatcherService) (new : List Effect)
    (ht : s2.trace = s.trace ++ new) (hn : TraceOk new)
    (hw : ∀ w, (s2.watches w).anyErrorCode = (s.watches w).anyErrorCode
      ∨ (s2.watches w).anyErrorCode ≠ ERROR_SUCCESS) : Preserves s s2 := by
  constructor
  · intro h
    rw [ht, traceOk_append]
    exact ⟨h, hn⟩
  · intro w h
    rcases hw w with h1 | h1
    · rw [h1]; exact h
    · exact h1

theorem preserves_postOverflowEvent (s : WatcherService) (watch : Nat) :
    Preserves s (postOverflowEvent s watch) := by
  refine preserves_of s _ [Effect.notify (overflowEvent (s.watches watch).keyObject)] rfl ?_
    (fun w => Or.inl rfl)
  intro e he
  simp [notifications] at he
  subst he
  exact pathIffKind_overflowEvent _

theorem preserves_readDirectoryChanges (s : WatcherService) (watch : Nat) :
    Preserves s (readDirectoryChanges s watch).1 :=
  preserves_of s _ _ rfl (traceOk_readDirectoryChangesLoop _ _ _) (fun _ => Or.inl rfl)

theorem preserves_rearm (s : WatcherService) (watch : Nat) : Preserves s (rearm s watch) := by
  refine preserves_of s _
    (readDirectoryChangesLoop (s.watches watch).fileHandle (s.watches watch).keyObject s.rdcw).1
    ?_ (traceOk_readDirectoryChangesLoop _ _ _) ?_
  · unfold rearm readDirectoryChanges
    dsimp only
    split_ifs <;> rfl
  · intro w
    unfold rearm readDirectoryChanges
    dsimp only
    split_ifs with h
    · by_cases hw : w = watch
      · right
        simpa [store, hw] using h
      · left
        simp [store, hw]
    · left; rfl

theorem preserves_handleNotifyInformations (s : WatcherService) (watch bytes : Nat) :
    Preserves s (handleNotifyInformations s watch bytes) := by
  unfold handleNotifyInformations
  split_ifs with h1 h2
  · refine Preserves.trans ?_ (preserves_rearm _ watch)
    refine preserves_of s _ _ rfl ?_ (fun _ => Or.inl rfl)
    intro e he
    rw [notifications_map_notify] at he
    exact pathIffKind_notifyLoop _ _ _ _ e he
  · exact Preserves.trans (preserves_postOverflowEvent s watch) (preserves_rearm _ watch)
  · exact Preserves.refl s

theorem preserves_handlePoll (s : WatcherService) (watch : Nat) :
    Preserves s (handlePoll s watch) := by
  unfold handlePoll
  split_ifs
  · exact preserves_of s _ [Effect.SetEvent (s.watches watch).pollEvent] rfl
      (traceOk_of_notifications_nil _ rfl) (fun _ => Or.inl rfl)
  · exact preserves_of s _ [] (by simp [PostQueuedCompletionStatus])
      (traceOk_of_notifications_nil _ rfl) (fun _ => Or.inl rfl)

theorem preserves_handlePollDone (s : WatcherService) (pollevent : Nat) :
    Preserves s (handlePollDone s pollevent) := by
  unfold handlePollDone
  split_ifs
  · exact preserves_of s _ [Effect.SetEvent pollevent] rfl
      (traceOk_of_notifications_nil _ rfl) (fun _ => Or.inl rfl)
  · exact Preserves.refl s

theorem preserves_handleAddFile (s : WatcherService) (param : Nat) :
    Preserves s (handleAddFile s param) := by
  refine Preserves.trans (preserves_readDirectoryChanges s (s.params param).watch) ?_
  unfold handleAddFile handleAddFileBody
  dsimp only
  split_ifs
  · exact preserves_of _ _ [Effect.SetEvent s.addFileEvent] (by simp [readDirectoryChanges])
      (traceOk_of_notifications_nil _ rfl) (fun _ => Or.inl rfl)
  · exact preserves_of _ _ [Effect.SetEvent s.addFileEvent] (by simp [readDirectoryChanges])
      (traceOk_of_notifications_nil _ rfl) (fun _ => Or.inl rfl)

theorem preserves_handleRemoveFile (s : WatcherService) (watch : Nat) :
    Preserves s (handleRemoveFile s watch) := by
  have hw : ∀ w, ((handleRemoveFile s watch).watches w).anyErrorCode
      = (s.watches w).anyErrorCode := by
    intro w
    unfold handleRemoveFile PostQueuedCompletionStatus
    dsimp only
    by_cases h : w = watch
    · subst h
      split_ifs <;> simp [store, anyErrorCode_closeHandles]
    · split_ifs <;> simp [store, h]
  refine ⟨?_, fun w h => by rw [hw w]; exact h⟩
  intro ht
  unfold handleRemoveFile PostQueuedCompletionStatus
  dsimp only
  split_ifs <;> simp only [traceOk_append] <;> repeat' apply And.intro
  all_goals
    first
      | exact ht
      | exact traceOk_of_notifications_nil _ rfl
      | exact traceOk_of_notifications_nil _ (notifications_closeHandles _)

theorem preserves_handleDeleteFile (s : WatcherService) (watch : Nat) :
    Preserves s (handleDeleteFile s watch) := by
  unfold handleDeleteFile
  split_ifs
  · refine preserves_of s _ (s.watches watch).closeHandles.2 rfl
      (traceOk_of_notifications_nil _ (notifications_closeHandles _)) ?_
    intro w
    left
    by_cases h : w = watch
    · subst h
      simp [store, anyErrorCode_closeHandles]
    · simp [store, h]
  · exact Preserves.refl s

theorem preserves_handleEntry (st : WatcherService × Bool) (entry : OVERLAPPED_ENTRY) :
    Preserves st.1 (handleEntry st entry).1 := by
  unfold handleEntry
  split_ifs
  · exact Preserves.refl _
  · exact preserves_handlePoll _ _
  · exact preserves_handlePollDone _ _
  · exact preserves_handleAddFile _ _
  · exact preserves_handleRemoveFile _ _
  · exact preserves_handleDeleteFile _ _
  · exact Preserves.refl _
  · exact preserves_handleNotifyInformations _ _ _

theorem preserves_handleIndex (st : WatcherService × Bool) (i : Nat) :
    Preserves st.1 (handleIndex st i).1 := by
  unfold handleIndex
  exact Preserves.trans
    (preserves_of st.1
      { st.1 with memoryFault := st.1.memoryFault || decide (st.1.overlappedEntries.length ≤ i) }
      [] (by simp) (traceOk_of_notifications_nil _ rfl) (fun _ => Or.inl rfl))
    (preserves_handleEntry (_, st.2) _)

theorem preserves_handleLoop (fuel : Nat) :
    ∀ (i n : Nat) (st : WatcherService × Bool), Preserves st.1 (handleLoop fuel i n st).1 := by
  induction fuel with
  | zero => intro i n st; exact Preserves.refl _
  | succ f ih =>
    intro i n st
    unfold handleLoop
    split_ifs
    · exact Preserves.trans (preserves_handleIndex st i) (ih _ _ _)
    · exact Preserves.refl _

theorem preserves_executeExitThread (s : WatcherService) (exitcode : Nat) :
    Preserves s (executeExitThread s exitcode) := by
  refine preserves_of s _ _ (by simp [executeExitThread, List.append_assoc]; rfl) ?_
    (fun _ => Or.inl rfl)
  apply traceOk_of_notifications_nil
  rw [notifications_append, notifications_append, notifications_map_SetEvent]
  split_ifs <;> rfl

theorem preserves_handleCompletionEntries (s : WatcherService) (entriesremoved : Nat) :
    Preserves s (handleCompletionEntries s entriesremoved) := by
  unfold handleCompletionEntries
  dsimp only
  split_ifs
  · exact Preserves.trans (preserves_handleLoop _ _ _ (s, false)) (preserves_executeExitThread _ _)
  · exact preserves_handleLoop _ _ _ (s, false)

theorem traceOk_failWatch (err : Nat) (s : WatcherService) (w : Nat) (h : TraceOk s.trace) :
    TraceOk (failWatch err s w).trace := by
  unfold failWatch postOverflowEvent
  simp only [traceOk_append]
  refine ⟨⟨h, traceOk_of_notifications_nil _ (notifications_closeHandles _)⟩, ?_⟩
  intro e he
  simp [notifications] at he
  subst he
  exact pathIffKind_overflowEvent _

theorem traceOk_foldl_failWatch (err : Nat) (ws : List Nat) :
    ∀ s : WatcherService, TraceOk s.trace → TraceOk (ws.foldl (failWatch err) s).trace := by
  induction ws with
  | nil => intro s h; exact h
  | cons w rest ih => intro s h; exact ih _ (traceOk_failWatch err s w h)

theorem anyErrorCode_failWatch (err : Nat) (herr : err ≠ ERROR_SUCCESS) (s : WatcherService)
    (w v : Nat) (h : (s.watches v).anyErrorCode ≠ ERROR_SUCCESS) :
    ((failWatch err s w).watches v).anyErrorCode ≠ ERROR_SUCCESS := by
  unfold failWatch postOverflowEvent
  by_cases hv : v = w
  · subst hv
    simpa [store, anyErrorCode_closeHandles] using herr
  · simpa [store, hv] using h

theorem anyErrorCode_foldl_failWatch (err : Nat) (herr : err ≠ ERROR_SUCCESS) (ws : List Nat)
    (v : Nat) : ∀ s : WatcherService, (s.watches v).anyErrorCode ≠ ERROR_SUCCESS →
      ((ws.foldl (failWatch err) s).watches v).anyErrorCode ≠ ERROR_SUCCESS := by
  induction ws with
  | nil => intro s h; exact h
  | cons w rest ih => intro s h; exact ih _ (anyErrorCode_failWatch err herr s w v h)

/-- Every round of `runThread` keeps the form of the calls. -/
theorem traceOk_runThreadIteration (s : WatcherService) (r : WaitResult) (h : TraceOk s.trace) :
    TraceOk (runThreadIteration s r).trace := by
  unfold runThreadIteration
  split_ifs
  · exact h
  · cases r with
    | failure err =>
      exact (preserves_executeExitThread _ _).1 (traceOk_foldl_failWatch err _ s h)
    | removed count =>
      dsimp only
      split_ifs
      · exact h
      · exact (preserves_handleCompletionEntries _ _).1 h

/-- A round of `runThread` that is not a failure of the wait with
`GetLastError() = ERROR_SUCCESS` leaves every watch in error state in error
state. -/
theorem anyErrorCode_runThreadIteration (s : WatcherService) (r : WaitResult)
    (hr : r ≠ WaitResult.failure ERROR_SUCCESS) (v : Nat)
    (h : (s.watches v).anyErrorCode ≠ ERROR_SUCCESS) :
    ((runThreadIteration s r).watches v).anyErrorCode ≠ ERROR_SUCCESS := by
  unfold runThreadIteration
  split_ifs
  · exact h
  · cases r with
    | failure err =>
      have herr : err ≠ ERROR_SUCCESS := fun he => hr (by rw [he])
      exact (preserves_executeExitThread _ _).2 v
        (anyErrorCode_foldl_failWatch err herr _ v s h)
    | removed count =>
      dsimp only
      split_ifs
      · exact h
      · exact (preserves_handleCompletionEntries _ _).2 v h

theorem traceOk_step (s : WatcherService) (st : Step) (h : TraceOk s.trace) :
    TraceOk (step s st).trace := by
  cases st with
  | post entry => exact h
  | fill watch buffer => exact h
  | wait r => exact traceOk_runThreadIteration s r h

theorem traceOk_run (steps : List Step) :
    ∀ s : WatcherService, TraceOk s.trace → TraceOk (run s steps).trace := by
  induction steps with
  | nil => intro s h; exact h
  | cons st rest ih => intro s h; exact ih _ (traceOk_step s st h)

theorem anyErrorCode_step (s : WatcherService) (st : Step)
    (hst : st ≠ Step.wait (WaitResult.failure ERROR_SUCCESS)) (v : Nat)
    (h : (s.watches v).anyErrorCode ≠ ERROR_SUCCESS) :
    ((step s st).watches v).anyErrorCode ≠ ERROR_SUCCESS := by
  cases st with
  | post entry => exact h
  | fill watch buffer =>
    by_cases hv : v = watch
    · subst hv
      simpa [step, store] using h
    · simpa [step, store, hv] using h
  | wait r =>
    exact anyErrorCode_runThreadIteration s r (fun he => hst (by rw [he])) v h

theorem anyErrorCode_run (steps : List Step) (v : Nat) :
    ∀ s : WatcherService, (∀ st ∈ steps, st ≠ Step.wait (WaitResult.failure ERROR_SUCCESS)) →
      (s.watches v).anyErrorCode ≠ ERROR_SUCCESS →
      ((run s steps).watches v).anyErrorCode ≠ ERROR_SUCCESS := by
  induction steps with
  | nil => intro s _ h; exact h
  | cons st rest ih =>
    intro s hs h
    exact ih _ (fun x hx => hs x (List.mem_cons_of_mem _ hx))
      (anyErrorCode_step s st (hs st (List.mem_cons_self _ _)) v h)

end Win32

/-! # Events of both services: claims -/

namespace MacOS

theorem notifyeventflag_ne_overflow (ef flag : Nat) (h : notifyeventflag ef = some flag) :
    flag ≠ FLAG_EVENT_OVERFLOW := by
  unfold notifyeventflag at h
  split_ifs at h <;> simp at h <;> subst h <;>
    simp [FLAG_EVENT_OVERFLOW, FLAG_EVENT_MODIFY, FLAG_EVENT_CREATE, FLAG_EVENT_DELETE]

theorem pathIffKind_eventIteration (key : WatchKey) (buf path : List Nat) (ef : Nat)
    (buf1 : List Nat) (calls : List Event)
    (h : eventIteration key buf path ef = some (buf1, calls)) :
    ∀ e ∈ calls, PathIffKind e := by
  unfold eventIteration at h
  cases hc : CFStringGetCharacters path buf with
  | none => simp [hc] at h
  | some b =>
    rw [hc] at h
    dsimp only at h
    cases hr : relativePart key b path.length with
    | none =>
      rw [hr] at h
      simp only [Option.some.injEq, Prod.mk.injEq] at h
      intro e he
      rw [← h.2] at he
      simp at he
      subst he
      simp [PathIffKind, WatchKey.notifyOverflow]
    | some r =>
      obtain ⟨off, n⟩ := r
      rw [hr] at h
      dsimp only at h
      cases hf : notifyeventflag ef with
      | none =>
        rw [hf] at h
        simp only [Option.some.injEq, Prod.mk.injEq] at h
        intro e he
        rw [← h.2] at he
        simp at he
        subst he
        simp [PathIffKind, WatchKey.notifyOverflow]
      | some flag =>
        rw [hf] at h
        simp only [Option.some.injEq, Prod.mk.injEq] at h
        intro e he
        rw [← h.2] at he
        simp at he
        subst he
        simpa [PathIffKind] using notifyeventflag_ne_overflow ef flag hf

theorem pathIffKind_eventCallbackFunction (key : WatchKey) (evs : List (List Nat × Nat)) :
    ∀ (buf : List Nat) (calls : List Event), eventCallbackFunction key buf evs = some calls →
      ∀ e ∈ calls, PathIffKind e := by
  induction evs with
  | nil =>
    intro buf calls h e he
    simp [eventCallbackFunction] at h
    subst h
    cases he
  | cons ev rest ih =>
    intro buf calls h e he
    obtain ⟨path, ef⟩ := ev
    unfold eventCallbackFunction at h
    cases hi : eventIteration key buf path ef with
    | none => simp [hi] at h
    | some r =>
      obtain ⟨buf1, c1⟩ := r
      rw [hi] at h
      dsimp only at h
      cases hrest : eventCallbackFunction key buf1 rest with
      | none => simp [hrest] at h
      | some more =>
        rw [hrest] at h
        simp only [Option.some.injEq] at h
        rw [← h, List.mem_append] at he
        rcases he with he | he
        · exact pathIffKind_eventIteration key buf path ef buf1 c1 hi e he
        · exact ih buf1 more hrest e he

theorem eventCallbackFunction_single (key : WatchKey) (buf path : List Nat) (ef : Nat) :
    eventCallbackFunction key buf [(path, ef)] = roundCalls key buf path ef := by
  unfold roundCalls
  simp only [eventCallbackFunction]
  cases eventIteration key buf path ef with
  | none => rfl
  | some r => simp

theorem callback_modified_watched_path :
    eventCallbackFunction (WatchKey.new 7 pathData) zeroBuf
        [(pathData, kFSEventStreamEventFlagItemModified)]
      = some [{ keyObject := 7, flag := FLAG_EVENT_MODIFY, path := some [] }] := by
  rw [eventCallbackFunction_single, roundCalls_buffer _ _ _ _ (by rw [length_zeroBuf]; decide)]
  decide

end MacOS

/-- C7 (as stated it fails): the watch on `/data` gets the raw path `/data`
itself with `ItemModified`; the callback delivers a `Modified` event whose
relative path has length zero, so an empty path does not mean `Overflow`. -/
theorem C7_modified_with_empty_path :
    MacOS.eventCallbackFunction (MacOS.WatchKey.new 7 MacOS.pathData) MacOS.zeroBuf
        [(MacOS.pathData, MacOS.kFSEventStreamEventFlagItemModified)]
      = some [{ keyObject := 7, flag := FLAG_EVENT_MODIFY, path := some [] }]
    ∧ FLAG_EVENT_MODIFY ≠ FLAG_EVENT_OVERFLOW :=
  ⟨MacOS.callback_modified_watched_path, by decide⟩

/-- C7 (amended): for every event delivered by either backend the path
argument is absent if and only if the kind is `Overflow`.  Every `Overflow`
event carries no path, and every `Created`, `Modified` or `Deleted` event
carries a path string; that string may have length zero.  On macOS this holds
for all calls of a callback run, on Windows for all calls made along any run
of the event loop. -/
theorem C7_path_absent_iff_overflow :
    (∀ (key : MacOS.WatchKey) (buf : List Nat) (evs : List (List Nat × Nat)) (calls : List Event),
      MacOS.eventCallbackFunction key buf evs = some calls → ∀ e ∈ calls, PathIffKind e) ∧
    (∀ (s : Win32.WatcherService) (steps : List Win32.Step),
      Win32.TraceOk s.trace → Win32.TraceOk (Win32.run s steps).trace) :=
  ⟨fun key evs buf calls h => MacOS.pathIffKind_eventCallbackFunction key buf evs calls h,
    fun s steps h => Win32.traceOk_run steps s h⟩

/-- C7 at the macOS callback run of the `Modified` event above and at a round
of the Windows loop that handles one completion with data. -/
theorem C7_path_absent_iff_overflow_witness :
    (∀ e ∈ [({ keyObject := 7, flag := FLAG_EVENT_MODIFY, path := some [] } : Event)],
      PathIffKind e) ∧
    Win32.TraceOk (Win32.run (Win32.sampleService [Win32.completionOf 100 16] [])
      [Win32.Step.wait (Win32.WaitResult.removed 1)]).trace :=
  ⟨C7_path_absent_iff_overflow.1 (MacOS.WatchKey.new 7 MacOS.pathData) MacOS.zeroBuf
      [(MacOS.pathData, MacOS.kFSEventStreamEventFlagItemModified)] _
      MacOS.callback_modified_watched_path,
    C7_path_absent_iff_overflow.2 _ _ (Win32.traceOk_of_notifications_nil _ rfl)⟩

/-! # The Windows event loop: claims -/

namespace Win32

/-- C2 (the code departs from the claim): the watch at `100` is registered
and the port holds a completion with data for it followed by its
`RemoveWatch` command.  Handled as one batch, the command is handled first
(the walk is backwards): the watch leaves `addedWatches`, its poll event is
signaled, and then the completion is handled and `notifyEvent` is called for
the removed watch.  The same call is made when the command comes first and
the completion follows in a later batch. -/
theorem C2_notify_after_remove :
    (run (sampleService [completionOf 100 16, removeCommand 100] [some ERROR_INVALID_HANDLE])
        [Step.wait (WaitResult.removed 2)]).trace
      = [Effect.CancelIoEx 507, Effect.CloseHandle 507, Effect.SetEvent 607, Effect.CloseHandle 607,
         Effect.notify { keyObject := 7, flag := FLAG_EVENT_CREATE, path := some [97] },
         Effect.ReadDirectoryChangesW INVALID_HANDLE_VALUE (some ERROR_INVALID_HANDLE)]
    ∧ 100 ∉ (run (sampleService [removeCommand 100, completionOf 100 16] [some ERROR_INVALID_HANDLE])
        [Step.wait (WaitResult.removed 1)]).addedWatches
    ∧ notifications
        (run (sampleService [removeCommand 100, completionOf 100 16] [some ERROR_INVALID_HANDLE])
          [Step.wait (WaitResult.removed 1)]).trace = []
    ∧ notifications
        (run (sampleService [removeCommand 100, completionOf 100 16] [some ERROR_INVALID_HANDLE])
          [Step.wait (WaitResult.removed 1), Step.wait (WaitResult.removed 1)]).trace
      = [{ keyObject := 7, flag := FLAG_EVENT_CREATE, path := some [97] }] := by
  refine ⟨by decide, by decide, by decide, by decide⟩

/-- C3 (as stated it fails): a batch of two completions, for the watch with
key object `7` first and for the watch with key object `8` second, is handled
last entry first: the call for key object `8` precedes the call for key object
`7`, the reverse of what handling in reported order gives. -/
theorem C3_batch_handled_last_first :
    notifications (run (sampleService [completionOf 100 16, completionOf 200 16] [])
        [Step.wait (WaitResult.removed 2)]).trace
      = [{ keyObject := 8, flag := FLAG_EVENT_MODIFY, path := some [98] },
         { keyObject := 7, flag := FLAG_EVENT_CREATE, path := some [97] }]
    ∧ notifications (handleInReportedOrder sampleTwoCompletions 2).trace
      = [{ keyObject := 7, flag := FLAG_EVENT_CREATE, path := some [97] },
         { keyObject := 8, flag := FLAG_EVENT_MODIFY, path := some [98] }] := by
  refine ⟨by decide, by decide⟩

/-- C9 (the code departs from the claim): a completion with data arrives for
the registered watch at `100` and the re-arm fails with `ERROR_ACCESS_DENIED`.
The round stores the code in `anyErrorCode`, so the key is not valid any more,
but its only `notifyEvent` call is the `Created` of the record: no `Overflow`
is sent for the watch. -/
theorem C9_error_state_without_overflow :
    KeyIsValid (sampleService [completionOf 100 16] [some ERROR_ACCESS_DENIED]) 100 = true
    ∧ KeyIsValid (run (sampleService [completionOf 100 16] [some ERROR_ACCESS_DENIED])
        [Step.wait (WaitResult.removed 1)]) 100 = false
    ∧ ((run (sampleService [completionOf 100 16] [some ERROR_ACCESS_DENIED])
        [Step.wait (WaitResult.removed 1)]).watches 100).anyErrorCode = ERROR_ACCESS_DENIED
    ∧ notifications (run (sampleService [completionOf 100 16] [some ERROR_ACCESS_DENIED])
        [Step.wait (WaitResult.removed 1)]).trace
      = [{ keyObject := 7, flag := FLAG_EVENT_CREATE, path := some [97] }] := by
  refine ⟨by decide, by decide, by decide, by decide⟩

/-- C10: validity never comes back.  Along every run of the event loop
(entries reaching the port, buffers being filled, rounds of `runThread` that
handle a batch with any re-arm outcomes, and failures of the wait with an
error code), a key that is not valid stays not valid; on macOS every key is
valid at all times. -/
theorem C10_is_valid_never_returns (s : WatcherService) (steps : List Step) (key : Nat)
    (hsteps : ∀ st ∈ steps, st ≠ Step.wait (WaitResult.failure ERROR_SUCCESS))
    (h : KeyIsValid s key = false) :
    KeyIsValid (run s steps) key = false ∧ ∀ k : MacOS.WatchKey, MacOS.isValidKey k = true := by
  refine ⟨?_, fun _ => rfl⟩
  unfold KeyIsValid at h ⊢
  have h0 : (s.watches key).anyErrorCode ≠ ERROR_SUCCESS := by simpa using h
  simpa using anyErrorCode_run steps key s hsteps h0

/-- C10 at a watch whose re-arm failed, followed by an empty completion, a
round and a failure of the wait. -/
theorem C10_is_valid_never_returns_witness :
    (∀ st ∈ sampleSteps, st ≠ Step.wait (WaitResult.failure ERROR_SUCCESS)) ∧
    KeyIsValid sampleFailedService 100 = false ∧
    (KeyIsValid (run sampleFailedService sampleSteps) 100 = false
      ∧ ∀ k : MacOS.WatchKey, MacOS.isValidKey k = true) :=
  have hsteps : ∀ st ∈ sampleSteps, st ≠ Step.wait (WaitResult.failure ERROR_SUCCESS) := by
    intro st hst
    simp only [sampleSteps, List.mem_cons, List.mem_singleton, List.not_mem_nil, or_false] at hst
    rcases hst with rfl | rfl | rfl <;> simp [ERROR_SUCCESS, ERROR_INVALID_HANDLE]
  ⟨hsteps, by decide, C10_is_valid_never_returns sampleFailedService sampleSteps 100 hsteps
    (by decide)⟩

end Win32

/-! # The order of a batch -/

namespace Win32

theorem overlappedEntries_rearm (s : WatcherService) (watch : Nat) :
    (rearm s watch).overlappedEntries = s.overlappedEntries := by
  unfold rearm readDirectoryChanges
  dsimp only
  split_ifs <;> rfl

theorem overlappedEntries_handleNotifyInformations (s : WatcherService) (watch bytes : Nat) :
    (handleNotifyInformations s watch bytes).overlappedEntries = s.overlappedEntries := by
  unfold handleNotifyInformations
  split_ifs
  · rw [overlappedEntries_rearm]
  · rw [overlappedEntries_rearm]; rfl
  · rfl

/-- Handling one entry leaves `overlappedEntries` as it is, appends the empty
entry, or pops the last entry. -/
theorem overlappedEntries_handleEntry (st : WatcherService × Bool) (entry : OVERLAPPED_ENTRY) :
    (handleEntry st entry).1.overlappedEntries = st.1.overlappedEntries
    ∨ (handleEntry st entry).1.overlappedEntries = st.1.overlappedEntries
        ++ [{ lpCompletionKey := 0, lpOverlapped := 0, dwNumberOfBytesTransferred := 0 }]
    ∨ (handleEntry st entry).1.overlappedEntries = st.1.overlappedEntries.dropLast := by
  unfold handleEntry
  split_ifs
  · left; rfl
  · left
    unfold handlePoll PostQueuedCompletionStatus
    split_ifs <;> rfl
  · left
    unfold handlePollDone
    split_ifs <;> rfl
  · unfold handleAddFile handleAddFileBody readDirectoryChanges
    dsimp only
    split_ifs
    · right; left; rfl
    · left; rfl
  · right; right
    unfold handleRemoveFile PostQueuedCompletionStatus
    dsimp only
    split_ifs <;> rfl
  · left
    unfold handleDeleteFile
    split_ifs <;> rfl
  · left; rfl
  · left
    exact overlappedEntries_handleNotifyInformations _ _ _

/-- Handling the entry at an index inside the vector keeps all entries below
that index, and keeps them inside the vector. -/
theorem take_handleEntry (st : WatcherService × Bool) (entry : OVERLAPPED_ENTRY) (i : Nat)
    (hi : i < st.1.overlappedEntries.length) :
    (handleEntry st entry).1.overlappedEntries.take i = st.1.overlappedEntries.take i
    ∧ i ≤ (handleEntry st entry).1.overlappedEntries.length := by
  rcases overlappedEntries_handleEntry st entry with h | h | h
  · rw [h]
    exact ⟨rfl, by omega⟩
  · rw [h]
    refine ⟨List.take_append_of_le_length (by omega), ?_⟩
    simp
    omega
  · rw [h]
    refine ⟨?_, ?_⟩
    · rw [List.dropLast_eq_take, List.take_take]
      congr 1
      omega
    · simp
      omega

theorem handleIndex_inside (st : WatcherService × Bool) (i : Nat)
    (hi : i < st.1.overlappedEntries.length) :
    handleIndex st i = handleEntry st (st.1.overlappedEntries.getD i default) := by
  unfold handleIndex
  have h : decide (st.1.overlappedEntries.length ≤ i) = false := by
    simp only [decide_eq_false_iff_not]; omega
  rw [h, Bool.or_false]

/-- The loop of `handleCompletionEntries` ends by its own test within the
bound on its rounds, and is the plain count down from its start index. -/
theorem handleLoop_eq_handleDown (n : Nat) (hn : n < 2 ^ 32) :
    ∀ (i fuel : Nat) (st : WatcherService × Bool), i < n → i < fuel →
      handleLoop fuel i n st = handleDown (i + 1) st := by
  intro i
  induction i with
  | zero =>
    intro fuel st hi hf
    cases fuel with
    | zero => omega
    | succ f =>
      have hw : ¬ ((0 + (2 ^ 64 - 1)) % 2 ^ 64 < n) := by
        norm_num
        omega
      unfold handleLoop
      rw [if_pos hi]
      cases f with
      | zero => rfl
      | succ g =>
        unfold handleLoop
        rw [if_neg hw]
        rfl
  | succ j ih =>
    intro fuel st hi hf
    cases fuel with
    | zero => omega
    | succ f =>
      have hw : (j + 1 + (2 ^ 64 - 1)) % 2 ^ 64 = j := by
        have : j + 1 + (2 ^ 64 - 1) = j + 2 ^ 64 := by omega
        rw [this, Nat.add_mod_right]
        exact Nat.mod_eq_of_lt (by omega)
      unfold handleLoop
      rw [if_pos hi, hw, ih f _ (by omega) (by omega)]
      rfl

theorem handleDown_eq_foldl (k : Nat) :
    ∀ st : WatcherService × Bool, k ≤ st.1.overlappedEntries.length →
      handleDown k st = (st.1.overlappedEntries.take k).reverse.foldl handleEntry st := by
  induction k with
  | zero => intro st _; simp [handleDown]
  | succ j ih =>
    intro st hk
    have hj : j < st.1.overlappedEntries.length := by omega
    have ht := take_handleEntry st (st.1.overlappedEntries.getD j default) j hj
    unfold handleDown
    rw [handleIndex_inside st j hj, ih _ ht.2, ht.1]
    have hsplit : st.1.overlappedEntries.take (j + 1)
        = st.1.overlappedEntries.take j ++ [st.1.overlappedEntries.getD j default] := by
      rw [List.take_succ]
      congr 1
      simp [List.getD, List.getElem?_eq_getElem hj]
    rw [hsplit, List.reverse_append]
    rfl

/-- C3 (amended): for every batch that fits `overlappedEntries`,
`handleCompletionEntries` handles the entries of the batch in exactly the
reverse of the order the port reported them, entry `n - 1` first and entry `0`
last, each with the state left by the entries handled before it; an `Exit`
command among them takes effect after the whole batch. -/
theorem C3_batch_handled_in_reverse_order (s : WatcherService) (n : Nat)
    (hfit : n ≤ s.overlappedEntries.length) (h32 : n < 2 ^ 32) :
    handleCompletionEntries s n = handleInReverseOrder s n := by
  unfold handleCompletionEntries handleInReverseOrder
  cases n with
  | zero => simp [handleLoop]
  | succ m =>
    have hw : (m + 1 + (2 ^ 32 - 1)) % 2 ^ 32 = m := by
      have : m + 1 + (2 ^ 32 - 1) = m + 2 ^ 32 := by omega
      rw [this, Nat.add_mod_right]
      exact Nat.mod_eq_of_lt (by omega)
    rw [hw, handleLoop_eq_handleDown (m + 1) h32 m (m + 1) (s, false) (by omega) (by omega),
      handleDown_eq_foldl (m + 1) (s, false) hfit]

/-- C3 at a batch of two completions. -/
theorem C3_batch_handled_in_reverse_order_witness :
    2 ≤ sampleTwoCompletions.overlappedEntries.length
    ∧ 2 < 2 ^ 32
    ∧ handleCompletionEntries sampleTwoCompletions 2
      = handleInReverseOrder sampleTwoCompletions 2 :=
  ⟨by decide, by decide,
    C3_batch_handled_in_reverse_order sampleTwoCompletions 2 (by decide) (by decide)⟩

end Win32

/-! # Index safety and the deferred exit -/

namespace Win32

theorem memoryFault_rearm (s : WatcherService) (watch : Nat) :
    (rearm s watch).memoryFault = s.memoryFault := by
  unfold rearm readDirectoryChanges
  dsimp only
  split_ifs <;> rfl

theorem memoryFault_handleNotifyInformations (s : WatcherService) (watch bytes : Nat) :
    (handleNotifyInformations s watch bytes).memoryFault = s.memoryFault := by
  unfold handleNotifyInformations
  split_ifs
  · rw [memoryFault_rearm]
  · rw [memoryFault_rearm]; rfl
  · rfl

/-- Handling an entry while `overlappedEntries` is not empty raises no memory
fault. -/
theorem memoryFault_handleEntry (st : WatcherService × Bool) (entry : OVERLAPPED_ENTRY)
    (h : 0 < st.1.overlappedEntries.length) :
    (handleEntry st entry).1.memoryFault = st.1.memoryFault := by
  have hne : st.1.overlappedEntries.isEmpty = false := by
    cases hl : st.1.overlappedEntries with
    | nil => rw [hl] at h; simp at h
    | cons a t => rfl
  unfold handleEntry
  split_ifs
  · rfl
  · unfold handlePoll PostQueuedCompletionStatus
    split_ifs <;> rfl
  · unfold handlePollDone
    split_ifs <;> rfl
  · unfold handleAddFile handleAddFileBody readDirectoryChanges
    dsimp only
    split_ifs <;> rfl
  · unfold handleRemoveFile PostQueuedCompletionStatus
    dsimp only
    split_ifs <;> simp [hne]
  · unfold handleDeleteFile
    split_ifs <;> rfl
  · rfl
  · exact memoryFault_handleNotifyInformations _ _ _

theorem memoryFault_handleDown (k : Nat) :
    ∀ st : WatcherService × Bool, k ≤ st.1.overlappedEntries.length →
      (handleDown k st).1.memoryFault = st.1.memoryFault := by
  induction k with
  | zero => intro st _; rfl
  | succ j ih =>
    intro st hk
    have hj : j < st.1.overlappedEntries.length := by omega
    have ht := take_handleEntry st (st.1.overlappedEntries.getD j default) j hj
    unfold handleDown
    rw [handleIndex_inside st j hj, ih _ ht.2, memoryFault_handleEntry st _ (by omega)]

/-- The loop of `handleCompletionEntries` on a batch that fits the vector is
the count down over the batch. -/
theorem handleLoop_batch (s : WatcherService) (n : Nat) (h32 : n < 2 ^ 32) :
    handleLoop n ((n + (2 ^ 32 - 1)) % 2 ^ 32) n (s, false) = handleDown n (s, false) := by
  cases n with
  | zero => rfl
  | succ m =>
    have hw : (m + 1 + (2 ^ 32 - 1)) % 2 ^ 32 = m := by
      have : m + 1 + (2 ^ 32 - 1) = m + 2 ^ 32 := by omega
      rw [this, Nat.add_mod_right]
      exact Nat.mod_eq_of_lt (by omega)
    rw [hw, handleLoop_eq_handleDown (m + 1) h32 m (m + 1) (s, false) (by omega) (by omega)]

theorem handleCompletionEntries_eq_reverse (s : WatcherService) (n : Nat)
    (hfit : n ≤ s.overlappedEntries.length) (h32 : n < 2 ^ 32) :
    handleCompletionEntries s n = handleInReverseOrder s n := by
  unfold handleCompletionEntries handleInReverseOrder
  rw [handleLoop_batch s n h32, handleDown_eq_foldl n (s, false) hfit]

/-- C18: for every batch that fits `overlappedEntries` at the time of the
wait, whatever commands it holds, the walk of `handleCompletionEntries` reads
no index at or beyond the size of the vector and pops no empty vector: no
memory fault is raised. -/
theorem C18_batch_walk_stays_inside (s : WatcherService) (n : Nat)
    (hfit : n ≤ s.overlappedEntries.length) (h32 : n < 2 ^ 32)
    (hclean : s.memoryFault = false) :
    (handleCompletionEntries s n).memoryFault = false := by
  unfold handleCompletionEntries
  rw [handleLoop_batch s n h32]
  dsimp only
  have h := memoryFault_handleDown n (s, false) hfit
  split_ifs
  · unfold executeExitThread
    simpa [hclean] using h
  · simpa [hclean] using h

end Win32

namespace Win32

/-- The memory fault flag does record a walk that leaves the vector: a batch
of two on a vector of one slot. -/
theorem memoryFault_of_overrun : (handleCompletionEntries sampleOneSlot 2).memoryFault = true := by
  decide

/-- C18 at a batch of a remove, an add and a remove command. -/
theorem C18_batch_walk_stays_inside_witness :
    3 ≤ sampleMixedBatch.overlappedEntries.length ∧ 3 < 2 ^ 32
    ∧ sampleMixedBatch.memoryFault = false
    ∧ (handleCompletionEntries sampleMixedBatch 3).memoryFault = false :=
  ⟨by decide, by decide, by decide,
    C18_batch_walk_stays_inside sampleMixedBatch 3 (by decide) (by decide) (by decide)⟩

theorem handleEntry_exit (st : WatcherService × Bool) (e : OVERLAPPED_ENTRY)
    (h : isExitCommand e = true) : handleEntry st e = (st.1, true) := by
  unfold isExitCommand at h
  simp only [Bool.and_eq_true, beq_iff_eq] at h
  unfold handleEntry
  rw [if_pos h.1, if_pos h.2]

theorem handleEntry_not_exit (s : WatcherService) (b : Bool) (e : OVERLAPPED_ENTRY)
    (h : isExitCommand e = false) :
    handleEntry (s, b) e = ((handleEntry (s, false) e).1, b) := by
  unfold isExitCommand at h
  unfold handleEntry
  by_cases h1 : e.lpOverlapped = 0
  · by_cases h2 : e.dwNumberOfBytesTransferred = COMMAND_KEY_EXIT
    · simp [h1, h2] at h
    · simp only [h1, h2, if_true, if_false]
      split_ifs <;> rfl
  · simp only [h1, if_false]

/-- In a fold of `handleEntry` an exit command only sets the flag: the state
is the one of the fold without the exit commands. -/
theorem foldl_handleEntry_exit (l : List OVERLAPPED_ENTRY) :
    ∀ (s : WatcherService) (b : Bool),
      l.foldl handleEntry (s, b)
        = (((l.filter fun e => !isExitCommand e).foldl handleEntry (s, false)).1,
            b || l.any isExitCommand) := by
  induction l with
  | nil => intro s b; simp
  | cons e rest ih =>
    intro s b
    cases he : isExitCommand e with
    | true =>
      rw [List.foldl_cons, handleEntry_exit (s, b) e he, ih]
      simp [he]
    | false =>
      rw [List.foldl_cons, handleEntry_not_exit s b e he, ih]
      simp only [List.filter_cons, he, Bool.not_false, if_true, List.foldl_cons, List.any_cons,
        Bool.false_or]
      rw [← handleEntry_not_exit s false e he]

theorem foldl_handleEntry_no_exit (l : List OVERLAPPED_ENTRY) (s : WatcherService) :
    ((l.filter fun e => !isExitCommand e).foldl handleEntry (s, false)).2 = false := by
  rw [foldl_handleEntry_exit]
  simp

/-- C17: when a batch holds an exit command, `handleCompletionEntries` handles
all other entries of the batch exactly as without it (the state `others`,
reached with the exit flag still down), and only then exits with code `0`:
the calls of the other entries come first in the trace, and on exit
`SetEvent` is called for every gate still in `pollEventNotifies`. -/
theorem C17_exit_after_the_batch (s : WatcherService) (n : Nat)
    (hfit : n ≤ s.overlappedEntries.length) (h32 : n < 2 ^ 32)
    (hexit : ∃ e ∈ s.overlappedEntries.take n, isExitCommand e = true) :
    (((s.overlappedEntries.take n).reverse.filter fun e => !isExitCommand e).foldl
        handleEntry (s, false)).2 = false
    ∧ handleCompletionEntries s n
      = executeExitThread
          (((s.overlappedEntries.take n).reverse.filter fun e => !isExitCommand e).foldl
            handleEntry (s, false)).1 0
    ∧ (handleCompletionEntries s n).exited = some 0
    ∧ (∃ tail, (handleCompletionEntries s n).trace
        = (((s.overlappedEntries.take n).reverse.filter fun e => !isExitCommand e).foldl
            handleEntry (s, false)).1.trace ++ tail)
    ∧ ∀ g ∈ (((s.overlappedEntries.take n).reverse.filter fun e => !isExitCommand e).foldl
          handleEntry (s, false)).1.pollEventNotifies,
        Effect.SetEvent g ∈ (handleCompletionEntries s n).trace := by
  have hany : (s.overlappedEntries.take n).reverse.any isExitCommand = true := by
    obtain ⟨e, he, hx⟩ := hexit
    rw [List.any_eq_true]
    exact ⟨e, List.mem_reverse.2 he, hx⟩
  have hmain : handleCompletionEntries s n
      = executeExitThread
          (((s.overlappedEntries.take n).reverse.filter fun e => !isExitCommand e).foldl
            handleEntry (s, false)).1 0 := by
    rw [handleCompletionEntries_eq_reverse s n hfit h32]
    unfold handleInReverseOrder
    rw [foldl_handleEntry_exit]
    simp [hany]
  refine ⟨foldl_handleEntry_no_exit _ s, hmain, ?_, ?_, ?_⟩
  · rw [hmain]; rfl
  · rw [hmain]
    exact ⟨_, by simp [executeExitThread, List.append_assoc]; rfl⟩
  · intro g hg
    rw [hmain]
    simp only [executeExitThread, List.mem_append, List.mem_map]
    exact Or.inl (Or.inr ⟨g, hg, rfl⟩)

/-- C17 at a batch of a poll command, an exit command and a remove command. -/
theorem C17_exit_after_the_batch_witness :
    3 ≤ sampleExitBatch.overlappedEntries.length ∧ 3 < 2 ^ 32
    ∧ (∃ e ∈ sampleExitBatch.overlappedEntries.take 3, isExitCommand e = true)
    ∧ (handleCompletionEntries sampleExitBatch 3).exited = some 0
    ∧ Effect.SetEvent 607 ∈ (handleCompletionEntries sampleExitBatch 3).trace :=
  have hexit : ∃ e ∈ sampleExitBatch.overlappedEntries.take 3, isExitCommand e = true :=
    ⟨exitCommand, by decide, by decide⟩
  ⟨by decide, by decide, hexit,
    (C17_exit_after_the_batch sampleExitBatch 3 (by decide) (by decide) hexit).2.2.1,
    (C17_exit_after_the_batch sampleExitBatch 3 (by decide) (by decide) hexit).2.2.2.2 607
      (by decide)⟩

end Win32

/-! # The add command and the failure of the wait -/

namespace Win32

theorem signals_append (a b : List Effect) : signals (a ++ b) = signals a ++ signals b := by
  induction a with
  | nil => rfl
  | cons x xs ih => cases x <;> simp [signals, ih]

/-- The calls of a re-arm end with the `ReadDirectoryChangesW` call that
decides the returned code, and hold no `SetEvent`. -/
theorem readDirectoryChangesLoop_last (fileHandle keyObject : Nat) (rdcw : List (Option Nat)) :
    ∃ (pre : List Effect) (final : Option Nat),
      (readDirectoryChangesLoop fileHandle keyObject rdcw).1
        = pre ++ [Effect.ReadDirectoryChangesW fileHandle final]
      ∧ signals pre = []
      ∧ (readDirectoryChangesLoop fileHandle keyObject rdcw).2.1 = final.getD ERROR_SUCCESS := by
  induction rdcw with
  | nil => exact ⟨[], none, rfl, rfl, rfl⟩
  | cons r rest ih =>
    cases r with
    | none => exact ⟨[], none, rfl, rfl, rfl⟩
    | some err =>
      by_cases h : err = ERROR_NOTIFY_ENUM_DIR
      · obtain ⟨pre, final, h1, h2, h3⟩ := ih
        refine ⟨Effect.ReadDirectoryChangesW fileHandle (some err)
          :: Effect.notify (overflowEvent keyObject) :: pre, final, ?_, ?_, ?_⟩
        · simp [readDirectoryChangesLoop, h, h1]
        · simp [signals, h2]
        · simpa [readDirectoryChangesLoop, h] using h3
      · exact ⟨[], some err, by simp [readDirectoryChangesLoop, h], rfl,
          by simp [readDirectoryChangesLoop, h]⟩

theorem trace_handleAddFileBody (s : WatcherService) (param : Nat) :
    (handleAddFileBody s param).trace = s.trace
      ++ (readDirectoryChangesLoop (s.watches (s.params param).watch).fileHandle
          (s.watches (s.params param).watch).keyObject s.rdcw).1 := by
  unfold handleAddFileBody readDirectoryChanges
  dsimp only
  split_ifs <;> rfl

theorem addFileEvent_handleAddFileBody (s : WatcherService) (param : Nat) :
    (handleAddFileBody s param).addFileEvent = s.addFileEvent := by
  unfold handleAddFileBody readDirectoryChanges
  dsimp only
  split_ifs <;> rfl

theorem err_handleAddFileBody (s : WatcherService) (param : Nat) :
    ((handleAddFileBody s param).params param).err
      = (readDirectoryChangesLoop (s.watches (s.params param).watch).fileHandle
          (s.watches (s.params param).watch).keyObject s.rdcw).2.1 := by
  unfold handleAddFileBody readDirectoryChanges
  dsimp only
  split_ifs <;> simp [store]

theorem mem_setInsert (xs : List Nat) (x : Nat) : x ∈ setInsert xs x := by
  unfold setInsert
  split_ifs with h
  · exact h
  · exact List.mem_cons_self _ _

end Win32

namespace Win32

theorem registry_handleAddFileBody (s : WatcherService) (param : Nat) :
    ((readDirectoryChangesLoop (s.watches (s.params param).watch).fileHandle
          (s.watches (s.params param).watch).keyObject s.rdcw).2.1 = ERROR_SUCCESS →
      (handleAddFileBody s param).addedWatches = setInsert s.addedWatches (s.params param).watch
      ∧ (handleAddFileBody s param).overlappedEntries = s.overlappedEntries
          ++ [{ lpCompletionKey := 0, lpOverlapped := 0, dwNumberOfBytesTransferred := 0 }])
    ∧ ((readDirectoryChangesLoop (s.watches (s.params param).watch).fileHandle
          (s.watches (s.params param).watch).keyObject s.rdcw).2.1 ≠ ERROR_SUCCESS →
      (handleAddFileBody s param).addedWatches = s.addedWatches
      ∧ (handleAddFileBody s param).overlappedEntries = s.overlappedEntries) := by
  unfold handleAddFileBody readDirectoryChanges
  dsimp only
  constructor
  · intro h
    rw [if_pos h]
    exact ⟨rfl, rfl⟩
  · intro h
    rw [if_neg h]
    exact ⟨rfl, rfl⟩

/-- C13: handling an add command.  The gate `addFileEvent` is signaled
exactly once, as the last call of the handling.  When the last
`ReadDirectoryChangesW` call before it succeeded (the read is armed), the state
in which the gate is signaled already has the watch in `addedWatches` and one
more slot in `overlappedEntries`, and the reported result is `ERROR_SUCCESS`.
When that call failed with a code `err`, `addedWatches` and
`overlappedEntries` are as before and the reported result is `err`. -/
theorem C13_add_command_arms_then_signals (s : WatcherService) (param : Nat) :
    (handleAddFile s param).trace
        = (handleAddFileBody s param).trace ++ [Effect.SetEvent s.addFileEvent]
    ∧ signals ((handleAddFile s param).trace.drop s.trace.length) = [s.addFileEvent]
    ∧ ((handleAddFileBody s param).trace.getLast?
          = some (Effect.ReadDirectoryChangesW (s.watches (s.params param).watch).fileHandle none) →
        (s.params param).watch ∈ (handleAddFileBody s param).addedWatches
        ∧ (handleAddFileBody s param).overlappedEntries = s.overlappedEntries
            ++ [{ lpCompletionKey := 0, lpOverlapped := 0, dwNumberOfBytesTransferred := 0 }]
        ∧ ((handleAddFile s param).params param).err = ERROR_SUCCESS)
    ∧ (∀ err, err ≠ ERROR_SUCCESS →
        (handleAddFileBody s param).trace.getLast?
          = some (Effect.ReadDirectoryChangesW (s.watches (s.params param).watch).fileHandle
              (some err)) →
        (handleAddFile s param).addedWatches = s.addedWatches
        ∧ (handleAddFile s param).overlappedEntries = s.overlappedEntries
        ∧ ((handleAddFile s param).params param).err = err) := by
  obtain ⟨pre, final, h1, h2, h3⟩ := readDirectoryChangesLoop_last
    (s.watches (s.params param).watch).fileHandle (s.watches (s.params param).watch).keyObject s.rdcw
  have hbody := trace_handleAddFileBody s param
  have hreg := registry_handleAddFileBody s param
  have herr := err_handleAddFileBody s param
  have hlast : (handleAddFileBody s param).trace.getLast?
      = some (Effect.ReadDirectoryChangesW (s.watches (s.params param).watch).fileHandle final) := by
    rw [hbody, h1, ← List.append_assoc, List.getLast?_concat]
  have htrace : (handleAddFile s param).trace
      = (handleAddFileBody s param).trace ++ [Effect.SetEvent s.addFileEvent] := by
    unfold handleAddFile
    dsimp only
    rw [addFileEvent_handleAddFileBody]
  refine ⟨htrace, ?_, ?_, ?_⟩
  · rw [htrace, hbody, h1, List.append_assoc, List.drop_left]
    simp [signals_append, h2, signals]
  · intro harm
    rw [hlast] at harm
    have hf : final = none := by simpa using harm
    have hr : (readDirectoryChangesLoop (s.watches (s.params param).watch).fileHandle
        (s.watches (s.params param).watch).keyObject s.rdcw).2.1 = ERROR_SUCCESS := by
      rw [h3, hf]; rfl
    obtain ⟨ha, ho⟩ := hreg.1 hr
    refine ⟨?_, ho, ?_⟩
    · rw [ha]; exact mem_setInsert _ _
    · show ((handleAddFileBody s param).params param).err = ERROR_SUCCESS
      rw [herr, hr]
  · intro err hne hfail
    rw [hlast] at hfail
    have hf : final = some err := by simpa using hfail
    have hr : (readDirectoryChangesLoop (s.watches (s.params param).watch).fileHandle
        (s.watches (s.params param).watch).keyObject s.rdcw).2.1 = err := by
      rw [h3, hf]; rfl
    obtain ⟨ha, ho⟩ := hreg.2 (by rw [hr]; exact hne)
    refine ⟨ha, ho, ?_⟩
    show ((handleAddFileBody s param).params param).err = err
    rw [herr, hr]

/-- C13 at an add command whose first read is armed at once, and at one whose
first read fails with `ERROR_ACCESS_DENIED`. -/
theorem C13_add_command_arms_then_signals_witness :
    (300 ∈ (handleAddFileBody (sampleAddService []) 9).addedWatches
      ∧ (handleAddFileBody (sampleAddService []) 9).overlappedEntries
          = (sampleAddService []).overlappedEntries
            ++ [{ lpCompletionKey := 0, lpOverlapped := 0, dwNumberOfBytesTransferred := 0 }]
      ∧ ((handleAddFile (sampleAddService []) 9).params 9).err = ERROR_SUCCESS)
    ∧ ((handleAddFile (sampleAddService [some ERROR_ACCESS_DENIED]) 9).addedWatches
          = (sampleAddService [some ERROR_ACCESS_DENIED]).addedWatches
      ∧ (handleAddFile (sampleAddService [some ERROR_ACCESS_DENIED]) 9).overlappedEntries
          = (sampleAddService [some ERROR_ACCESS_DENIED]).overlappedEntries
      ∧ ((handleAddFile (sampleAddService [some ERROR_ACCESS_DENIED]) 9).params 9).err
          = ERROR_ACCESS_DENIED) :=
  ⟨(C13_add_command_arms_then_signals (sampleAddService []) 9).2.2.1 (by decide),
    (C13_add_command_arms_then_signals (sampleAddService [some ERROR_ACCESS_DENIED]) 9).2.2.2
      ERROR_ACCESS_DENIED (by decide) (by decide)⟩

end Win32

namespace Win32

theorem keyObject_failWatch (err : Nat) (s : WatcherService) (w v : Nat) :
    ((failWatch err s w).watches v).keyObject = (s.watches v).keyObject := by
  unfold failWatch postOverflowEvent
  by_cases hv : v = w
  · subst hv
    simp [store, keyObject_closeHandles]
  · simp [store, hv]

theorem notifications_failWatch (err : Nat) (s : WatcherService) (w : Nat) :
    notifications (failWatch err s w).trace
      = notifications s.trace ++ [overflowEvent (s.watches w).keyObject] := by
  unfold failWatch postOverflowEvent
  simp [notifications_append, notifications_closeHandles, notifications, store,
    keyObject_closeHandles]

theorem notifications_foldl_failWatch (err : Nat) (ws : List Nat) :
    ∀ s : WatcherService, notifications (ws.foldl (failWatch err) s).trace
      = notifications s.trace ++ ws.map fun w => overflowEvent (s.watches w).keyObject := by
  induction ws with
  | nil => intro s; simp
  | cons w rest ih =>
    intro s
    rw [List.foldl_cons, ih, notifications_failWatch, List.append_assoc]
    simp [keyObject_failWatch]

theorem port_foldl_failWatch (err : Nat) (ws : List Nat) :
    ∀ s : WatcherService, (ws.foldl (failWatch err) s).port = s.port := by
  induction ws with
  | nil => intro s; rfl
  | cons w rest ih => intro s; rw [List.foldl_cons, ih]; rfl

theorem anyErrorCode_failWatch_self (err : Nat) (s : WatcherService) (w : Nat) :
    ((failWatch err s w).watches w).anyErrorCode = err := by
  unfold failWatch postOverflowEvent
  simp [store, anyErrorCode_closeHandles]

theorem anyErrorCode_failWatch_keep (err : Nat) (s : WatcherService) (w v : Nat)
    (h : (s.watches v).anyErrorCode = err) : ((failWatch err s w).watches v).anyErrorCode = err := by
  by_cases hv : v = w
  · subst hv
    exact anyErrorCode_failWatch_self err s v
  · unfold failWatch postOverflowEvent
    simpa [store, hv] using h

theorem anyErrorCode_foldl_failWatch_keep (err : Nat) (ws : List Nat) (v : Nat) :
    ∀ s : WatcherService, (s.watches v).anyErrorCode = err →
      ((ws.foldl (failWatch err) s).watches v).anyErrorCode = err := by
  induction ws with
  | nil => intro s h; exact h
  | cons w rest ih => intro s h; exact ih _ (anyErrorCode_failWatch_keep err s w v h)

theorem anyErrorCode_foldl_failWatch_mem (err : Nat) (ws : List Nat) (v : Nat) :
    ∀ s : WatcherService, v ∈ ws → ((ws.foldl (failWatch err) s).watches v).anyErrorCode = err := by
  induction ws with
  | nil => intro s h; cases h
  | cons w rest ih =>
    intro s h
    rw [List.foldl_cons]
    by_cases hv : v = w
    · subst hv
      exact anyErrorCode_foldl_failWatch_keep err rest v _ (anyErrorCode_failWatch_self err s v)
    · rcases List.mem_cons.1 h with h1 | h1
      · exact absurd h1 hv
      · exact ih _ h1

/-- C15: when the wait of `runThread` fails with an error code, every
registered watch gets that code as `anyErrorCode` (its key is not valid any
more), the `notifyEvent` calls made are one `Overflow` for each member of
`addedWatches` and nothing else, so exactly one for each registered watch and
none for another one, and the thread exits with code `-1`: the port is left
as it is and no later round does anything. -/
theorem C15_wait_failure_fails_every_watch (s : WatcherService) (err : Nat)
    (hrun : s.exited = none) (herr : err ≠ ERROR_SUCCESS) (hset : s.addedWatches.Nodup)
    (hkeys : ∀ w ∈ s.addedWatches, ∀ v ∈ s.addedWatches,
      (s.watches w).keyObject = (s.watches v).keyObject → w = v) :
    notifications (runThreadIteration s (WaitResult.failure err)).trace
      = notifications s.trace
        ++ s.addedWatches.map (fun w => overflowEvent (s.watches w).keyObject)
    ∧ (∀ w ∈ s.addedWatches,
        KeyIsValid (runThreadIteration s (WaitResult.failure err)) w = false
        ∧ (s.addedWatches.map (fun v => overflowEvent (s.watches v).keyObject)).count
            (overflowEvent (s.watches w).keyObject) = 1)
    ∧ (runThreadIteration s (WaitResult.failure err)).exited = some (2 ^ 32 - 1)
    ∧ (runThreadIteration s (WaitResult.failure err)).port = s.port
    ∧ ∀ r, runThreadIteration (runThreadIteration s (WaitResult.failure err)) r
        = runThreadIteration s (WaitResult.failure err) := by
  have hstep : runThreadIteration s (WaitResult.failure err) = runThreadFailure s err := by
    unfold runThreadIteration
    simp [hrun]
  rw [hstep]
  refine ⟨?_, ?_, rfl, ?_, ?_⟩
  · unfold runThreadFailure executeExitThread
    simp only [notifications_append, notifications_map_SetEvent, notifications_foldl_failWatch]
    split_ifs <;> simp [notifications]
  · intro w hw
    constructor
    · unfold KeyIsValid runThreadFailure executeExitThread
      simp only [anyErrorCode_foldl_failWatch_mem err _ w s hw]
      simpa using herr
    · apply List.count_eq_one_of_mem
      · refine List.Nodup.map_on ?_ hset
        intro x hx y hy hxy
        exact hkeys x hx y hy (by simpa [overflowEvent] using hxy)
      · exact List.mem_map.2 ⟨w, hw, rfl⟩
  · unfold runThreadFailure executeExitThread
    exact port_foldl_failWatch err _ s
  · intro r
    unfold runThreadIteration
    simp [runThreadFailure, executeExitThread]

/-- C15 at the service with the watches at `100` and `200` and a wait that
fails with `ERROR_INVALID_HANDLE`. -/
theorem C15_wait_failure_fails_every_watch_witness :
    (sampleService [] []).exited = none ∧ ERROR_INVALID_HANDLE ≠ ERROR_SUCCESS
    ∧ (sampleService [] []).addedWatches.Nodup
    ∧ notifications
        (runThreadIteration (sampleService [] []) (WaitResult.failure ERROR_INVALID_HANDLE)).trace
      = notifications (sampleService [] []).trace
        ++ (sampleService [] []).addedWatches.map
            fun w => overflowEvent ((sampleService [] []).watches w).keyObject :=
  ⟨rfl, by decide, by decide,
    (C15_wait_failure_fails_every_watch (sampleService [] []) ERROR_INVALID_HANDLE rfl
      (by decide) (by decide) (by decide)).1⟩

end Win32

/-! # Ambiguous flags and the removed root -/

namespace MacOS

theorem priorityTable_ambiguous (ef : Nat) (h : isAmbiguous ef) :
    priorityTable ef = if hasCreation ef then FLAG_EVENT_CREATE else FLAG_EVENT_MODIFY := by
  unfold priorityTable
  by_cases hc : hasCreation ef
  · rw [if_pos hc]
    unfold hasCreation at hc
    rw [if_pos hc]
  · rw [if_neg hc]
    have hm : hasModification ef := by
      rcases h with h | h | h
      · exact absurd h.1 hc
      · exact absurd h.1 hc
      · exact h.1
    unfold hasCreation at hc
    unfold hasModification at hm
    rw [if_neg hc, if_pos hm]

theorem roundCalls_of_flags (keyobj : Nat) (W buf P : List Nat) (ef off n : Nat)
    (hbuf : buf.length = BUFLEN) (hP : P.length ≤ BUFLEN)
    (hpath : relativePart (WatchKey.new keyobj W) P P.length = some (off, n))
    (h1 : ef &&& kFSEventStreamEventFlagUserDropped = 0)
    (h2 : ef &&& kFSEventStreamEventFlagKernelDropped = 0)
    (h3 : ef &&& kFSEventStreamEventFlagMustScanSubDirs = 0)
    (h4 : ef &&& kFSEventStreamEventFlagRootChanged = 0) :
    roundCalls (WatchKey.new keyobj W) buf P ef =
      some [{ keyObject := keyobj, flag := priorityTable ef,
              path := if priorityTable ef = FLAG_EVENT_OVERFLOW then none
                      else some (NewString P off n) }] := by
  rw [roundCalls_buffer _ _ _ _ (by omega), roundCalls_self, hpath,
    notifyeventflag_table ef h1 h2 h3 h4]
  by_cases h : priorityTable ef = FLAG_EVENT_OVERFLOW
  · simp [h, WatchKey.notifyOverflow, WatchKey.new]
  · simp [h, WatchKey.new]

theorem roundCalls_of_overflow_flags (keyobj : Nat) (W buf P : List Nat) (ef : Nat)
    (hbuf : buf.length = BUFLEN) (hP : P.length ≤ BUFLEN)
    (hflag : ef &&& kFSEventStreamEventFlagUserDropped ≠ 0
      ∨ ef &&& kFSEventStreamEventFlagKernelDropped ≠ 0
      ∨ ef &&& kFSEventStreamEventFlagMustScanSubDirs ≠ 0
      ∨ ef &&& kFSEventStreamEventFlagRootChanged ≠ 0) :
    roundCalls (WatchKey.new keyobj W) buf P ef
      = some [{ keyObject := keyobj, flag := FLAG_EVENT_OVERFLOW, path := none }] := by
  rw [roundCalls_buffer _ _ _ _ (by omega), roundCalls_self, notifyeventflag_overflow ef hflag]
  cases relativePart (WatchKey.new keyobj W) P P.length with
  | none => simp [WatchKey.notifyOverflow, WatchKey.new]
  | some r => simp [WatchKey.notifyOverflow, WatchKey.new]

/-- C16 (as stated it fails): the watch on `/data` gets the raw path
`/data/a/b.txt` with `ItemCreated` and `ItemRemoved` together, a coalesced
create and delete.  The flag word is ambiguous, yet the round reports
`Created` with the relative path `a/b.txt`, not `Overflow`. -/
theorem C16_ambiguous_flags_reported_created :
    isAmbiguous 0x300 ∧
    roundCalls (WatchKey.new 7 pathData) zeroBuf pathDataAB 0x300
      = some [{ keyObject := 7, flag := FLAG_EVENT_CREATE,
                path := some [97, 47, 98, 46, 116, 120, 116] }]
    ∧ FLAG_EVENT_CREATE ≠ FLAG_EVENT_OVERFLOW := by
  refine ⟨by decide, ?_, by decide⟩
  rw [roundCalls_buffer _ _ _ _ (by rw [length_zeroBuf]; decide)]
  decide

/-- C16 (amended): an ambiguous flag word without overflow bits, on a raw path
that passes the prefix and separator checks, is reported with a specific kind
chosen by the priority order and never as `Overflow` or `Deleted`: `Created`
when `ItemCreated` is among its bits, `Modified` otherwise; the call carries
the relative path. -/
theorem C16_ambiguous_flags_follow_priority (keyobj : Nat) (W buf P : List Nat) (ef off n : Nat)
    (hbuf : buf.length = BUFLEN) (hP : P.length ≤ BUFLEN)
    (hpath : relativePart (WatchKey.new keyobj W) P P.length = some (off, n))
    (h1 : ef &&& kFSEventStreamEventFlagUserDropped = 0)
    (h2 : ef &&& kFSEventStreamEventFlagKernelDropped = 0)
    (h3 : ef &&& kFSEventStreamEventFlagMustScanSubDirs = 0)
    (h4 : ef &&& kFSEventStreamEventFlagRootChanged = 0)
    (hamb : isAmbiguous ef) :
    roundCalls (WatchKey.new keyobj W) buf P ef =
      some [{ keyObject := keyobj,
              flag := if hasCreation ef then FLAG_EVENT_CREATE else FLAG_EVENT_MODIFY,
              path := some (NewString P off n) }] := by
  rw [roundCalls_of_flags keyobj W buf P ef off n hbuf hP hpath h1 h2 h3 h4,
    priorityTable_ambiguous ef hamb]
  by_cases hc : hasCreation ef
  · simp [hc, FLAG_EVENT_CREATE, FLAG_EVENT_OVERFLOW]
  · simp [hc, FLAG_EVENT_MODIFY, FLAG_EVENT_OVERFLOW]

/-- C16 at the watch on `/data`, the raw path `/data/a/b.txt` and the flags
`ItemModified` and `ItemRemoved` together. -/
theorem C16_ambiguous_flags_follow_priority_witness :
    zeroBuf.length = BUFLEN ∧ pathDataAB.length ≤ BUFLEN
    ∧ relativePart (WatchKey.new 7 pathData) pathDataAB pathDataAB.length = some (6, 7)
    ∧ isAmbiguous 0x1200
    ∧ roundCalls (WatchKey.new 7 pathData) zeroBuf pathDataAB 0x1200 =
      some [{ keyObject := 7,
              flag := if hasCreation 0x1200 then FLAG_EVENT_CREATE else FLAG_EVENT_MODIFY,
              path := some (NewString pathDataAB 6 7) }] :=
  ⟨length_zeroBuf, by decide, by decide, by decide,
    C16_ambiguous_flags_follow_priority 7 pathData zeroBuf pathDataAB 0x1200 6 7 length_zeroBuf
      (by decide) (by decide) (by decide) (by decide) (by decide) (by decide) (by decide)⟩

end MacOS

namespace Win32

/-- A zero-byte completion for a registered watch whose re-arm fails at once
with a code other than `ERROR_NOTIFY_ENUM_DIR`: one `Overflow`, and the code is
kept in `anyErrorCode`. -/
theorem handleNotifyInformations_zero_failed (s : WatcherService) (watch err : Nat)
    (rest : List (Option Nat)) (hreg : watch ∈ s.addedWatches) (hos : s.rdcw = some err :: rest)
    (henum : err ≠ ERROR_NOTIFY_ENUM_DIR) (herr : err ≠ ERROR_SUCCESS) :
    notifications (handleNotifyInformations s watch 0).trace
      = notifications s.trace ++ [overflowEvent (s.watches watch).keyObject]
    ∧ ((handleNotifyInformations s watch 0).watches watch).anyErrorCode = err := by
  have h0 : ¬ (0 > 0) := by omega
  have hloop : readDirectoryChangesLoop (s.watches watch).fileHandle (s.watches watch).keyObject
      (some err :: rest)
      = ([Effect.ReadDirectoryChangesW (s.watches watch).fileHandle (some err)], err, rest) := by
    simp [readDirectoryChangesLoop, henum]
  unfold handleNotifyInformations
  rw [if_neg h0, if_neg (by simpa using hreg)]
  constructor
  · rw [notifications_rearm]
    simp [postOverflowEvent, notifications_append, notifications, hos, enumDirRetries, henum]
  · unfold rearm readDirectoryChanges postOverflowEvent
    simp [hos, hloop, herr, store]

end Win32

/-- C11 (as stated it fails): on macOS the watch on `/data` gets the raw path
`/data` with `RootChanged`; one `Overflow` is delivered, and the key is still
reported valid. -/
theorem C11_macos_key_stays_valid :
    MacOS.roundCalls (MacOS.WatchKey.new 7 MacOS.pathData) MacOS.zeroBuf MacOS.pathData
        MacOS.kFSEventStreamEventFlagRootChanged
      = some [{ keyObject := 7, flag := FLAG_EVENT_OVERFLOW, path := none }]
    ∧ MacOS.isValidKey (MacOS.WatchKey.new 7 MacOS.pathData) = true :=
  ⟨MacOS.roundCalls_of_overflow_flags 7 MacOS.pathData MacOS.zeroBuf MacOS.pathData _
      MacOS.length_zeroBuf (by decide) (by decide), rfl⟩

/-- C11 (amended): when the watched root is removed, exactly one `Overflow` is
delivered for the handle.  On macOS (a raw event with `RootChanged`) the key
stays valid, as every macOS key does.  On Windows (a zero-byte completion for
a registered watch whose re-arm fails at once with an error code other than
`ERROR_NOTIFY_ENUM_DIR`) the key is not valid afterwards. -/
theorem C11_root_removed_one_overflow :
    (∀ (keyobj : Nat) (W buf P : List Nat) (ef : Nat),
      buf.length = MacOS.BUFLEN → P.length ≤ MacOS.BUFLEN →
      ef &&& MacOS.kFSEventStreamEventFlagRootChanged ≠ 0 →
      MacOS.roundCalls (MacOS.WatchKey.new keyobj W) buf P ef
        = some [{ keyObject := keyobj, flag := FLAG_EVENT_OVERFLOW, path := none }]
      ∧ MacOS.isValidKey (MacOS.WatchKey.new keyobj W) = true) ∧
    (∀ (s : Win32.WatcherService) (watch err : Nat) (rest : List (Option Nat)),
      watch ∈ s.addedWatches → s.rdcw = some err :: rest →
      err ≠ Win32.ERROR_NOTIFY_ENUM_DIR → err ≠ Win32.ERROR_SUCCESS →
      Win32.notifications (Win32.handleNotifyInformations s watch 0).trace
        = Win32.notifications s.trace ++ [Win32.overflowEvent (s.watches watch).keyObject]
      ∧ Win32.KeyIsValid (Win32.handleNotifyInformations s watch 0) watch = false) := by
  constructor
  · intro keyobj W buf P ef hbuf hP hflag
    exact ⟨MacOS.roundCalls_of_overflow_flags keyobj W buf P ef hbuf hP
      (Or.inr (Or.inr (Or.inr hflag))), rfl⟩
  · intro s watch err rest hreg hos henum herr
    obtain ⟨h1, h2⟩ := Win32.handleNotifyInformations_zero_failed s watch err rest hreg hos henum herr
    refine ⟨h1, ?_⟩
    unfold Win32.KeyIsValid
    rw [h2]
    simpa using herr

/-- C11 at the macOS watch on `/data` and at the Windows watch at `100` whose
re-arm fails with `ERROR_ACCESS_DENIED`. -/
theorem C11_root_removed_one_overflow_witness :
    (MacOS.roundCalls (MacOS.WatchKey.new 7 MacOS.pathData) MacOS.zeroBuf MacOS.pathData
          MacOS.kFSEventStreamEventFlagRootChanged
        = some [{ keyObject := 7, flag := FLAG_EVENT_OVERFLOW, path := none }]
      ∧ MacOS.isValidKey (MacOS.WatchKey.new 7 MacOS.pathData) = true) ∧
    (Win32.notifications
          (Win32.handleNotifyInformations (Win32.sampleService [] [some Win32.ERROR_ACCESS_DENIED])
            100 0).trace
        = Win32.notifications (Win32.sampleService [] [some Win32.ERROR_ACCESS_DENIED]).trace
          ++ [Win32.overflowEvent
              ((Win32.sampleService [] [some Win32.ERROR_ACCESS_DENIED]).watches 100).keyObject]
      ∧ Win32.KeyIsValid
          (Win32.handleNotifyInformations (Win32.sampleService [] [some Win32.ERROR_ACCESS_DENIED])
            100 0) 100 = false) :=
  ⟨C11_root_removed_one_overflow.1 7 MacOS.pathData MacOS.zeroBuf MacOS.pathData
      MacOS.kFSEventStreamEventFlagRootChanged MacOS.length_zeroBuf (by decide) (by decide),
    C11_root_removed_one_overflow.2 (Win32.sampleService [] [some Win32.ERROR_ACCESS_DENIED]) 100
      Win32.ERROR_ACCESS_DENIED [] (by decide) rfl (by decide) (by decide)⟩

/-! # `addKey` -/

namespace Win32

theorem handleEntry_addCommand (s : WatcherService) (param : Nat) :
    handleEntry (s, false) (addCommand param) = (handleAddFile s param, false) := by
  unfold handleEntry addCommand
  simp [COMMAND_KEY_ADD_FILE, COMMAND_KEY_EXIT, COMMAND_KEY_POLL, COMMAND_KEY_POLL_DONE]

/-- The round in which the event loop finds only the add command in the
port: it handles that command. -/
theorem runThreadIteration_addCommand (s : WatcherService) (param count : Nat)
    (hrun : s.exited = none) (hq : s.port = [addCommand param])
    (hslot : 1 ≤ s.overlappedEntries.length) (hcount : 1 ≤ count) :
    runThreadIteration s (WaitResult.removed count)
      = handleAddFile
          { s with overlappedEntries := addCommand param :: s.overlappedEntries.drop 1
                   port := [] } param := by
  have h1 : min count (min s.overlappedEntries.length s.port.length) = 1 := by
    rw [hq]
    simp only [List.length_singleton]
    omega
  unfold runThreadIteration
  rw [if_neg (by simp [hrun])]
  simp only [h1]
  rw [if_neg (by omega), handleCompletionEntries_eq_reverse _ 1 (by simp [hq]) (by norm_num)]
  unfold handleInReverseOrder
  simp [hq, handleEntry_addCommand]

end Win32

namespace Win32

/-- The pointer that `addKey` returns when the event loop, idle before, handles
the add command while `addKey` waits. -/
theorem addKey_pointer (s : WatcherService) (port : Nat) (os : AddKeyAnswers)
    (watch param keyobject count : Nat)
    (hrun : s.exited = none) (hq : s.port = []) (hslot : 1 ≤ s.overlappedEntries.length)
    (hcount : 1 ≤ count) (hport : port ≠ 0) :
    (addKey s port os watch param keyobject [WaitResult.removed count]).2
      = if os.CreateFile ≠ INVALID_HANDLE_VALUE ∧ os.PostQueuedCompletionStatus = true
            ∧ (readDirectoryChangesLoop os.CreateFile keyobject s.rdcw).2.1 = ERROR_SUCCESS
        then watch else 0 := by
  unfold addKey addKeyPost
  by_cases hfile : os.CreateFile = INVALID_HANDLE_VALUE
  · simp [hfile]
  · by_cases hpost : os.PostQueuedCompletionStatus = false
    · simp [hfile, hport, hpost]
    · have hpost2 : os.PostQueuedCompletionStatus = true := by simpa using hpost
      simp only [hfile, hport, hpost2, if_false, Bool.true_eq_false, if_true, ne_eq,
        not_false_eq_true, true_and, List.foldl_cons, List.foldl_nil]
      rw [runThreadIteration_addCommand _ param count (by simpa [PostQueuedCompletionStatus] using hrun)
        (by simp [PostQueuedCompletionStatus, hq, addCommand])
        (by simpa [PostQueuedCompletionStatus] using hslot) hcount]
      unfold addKeyReturn
      have herr := err_handleAddFileBody
        { (PostQueuedCompletionStatus
            { s with
              watches := store s.watches watch
                { buffer := (s.watches watch).buffer, fileHandle := os.CreateFile,
                  pollEvent := os.CreateEvent, anyErrorCode := ERROR_SUCCESS,
                  keyObject := keyobject }
              params := store s.params param { watch := watch, err := ERROR_ACCESS_DENIED } }
            COMMAND_KEY_ADD_FILE param) with
          overlappedEntries := addCommand param :: s.overlappedEntries.drop 1
          port := [] } param
      simp only [PostQueuedCompletionStatus, store, if_true] at herr
      have herr2 : ((handleAddFile
          { (PostQueuedCompletionStatus
              { s with
                watches := store s.watches watch
                  { buffer := (s.watches watch).buffer, fileHandle := os.CreateFile,
                    pollEvent := os.CreateEvent, anyErrorCode := ERROR_SUCCESS,
                    keyObject := keyobject }
                params := store s.params param { watch := watch, err := ERROR_ACCESS_DENIED } }
              COMMAND_KEY_ADD_FILE param) with
            overlappedEntries := addCommand param :: s.overlappedEntries.drop 1
            port := [] } param).params param).err
          = (readDirectoryChangesLoop os.CreateFile keyobject s.rdcw).2.1 := herr
      simp only [PostQueuedCompletionStatus] at herr2 ⊢
      by_cases harm : (readDirectoryChangesLoop os.CreateFile keyobject s.rdcw).2.1 = ERROR_SUCCESS
      · rw [if_neg (by rw [herr2]; simpa using harm), if_pos harm]
      · rw [if_pos (by rw [herr2]; exact harm), if_neg harm]

end Win32

/-- C12 (as stated it fails): on macOS `addKey` returns a key although
`FSEventStreamCreate` gave no stream and `FSEventStreamStart` failed; on
Windows `addKey` returns the watch although `CreateIoCompletionPort` gave
`NULL` for the opened handle. -/
theorem C12_handle_returned_after_failed_step :
    (MacOS.addKey 1 { FSEventStreamCreate := 0, FSEventStreamStart := false } MacOS.pathData 7).isSome
      = true
    ∧ (Win32.addKey (Win32.sampleService [] []) 1
        { CreateFile := 700, CreateEvent := 800, CreateIoCompletionPort := 0,
          PostQueuedCompletionStatus := true }
        300 9 77 [Win32.WaitResult.removed 1]).2 = 300 := by
  refine ⟨by decide, by decide⟩

/-- C12 (amended): on Windows, with the port of the service open and the
opened handle attached to it, `addKey` returns a null handle whenever opening
the directory, posting the add command or arming the first read fails, and
returns the watch when these three succeeded.  On macOS `addKey` returns a
null handle exactly when the thread has no run loop; it returns a key whatever
`FSEventStreamCreate` and `FSEventStreamStart` answer. -/
theorem C12_addKey_result :
    (∀ (s : Win32.WatcherService) (port : Nat) (os : Win32.AddKeyAnswers)
      (watch param keyobject count : Nat),
      s.exited = none → s.port = [] → 1 ≤ s.overlappedEntries.length → 1 ≤ count →
      port ≠ 0 → os.CreateIoCompletionPort ≠ 0 → watch ≠ 0 →
      ((Win32.addKey s port os watch param keyobject [Win32.WaitResult.removed count]).2 = watch
        ↔ os.CreateFile ≠ Win32.INVALID_HANDLE_VALUE ∧ os.PostQueuedCompletionStatus = true
          ∧ (Win32.readDirectoryChangesLoop os.CreateFile keyobject s.rdcw).2.1
              = Win32.ERROR_SUCCESS)
      ∧ ((Win32.addKey s port os watch param keyobject [Win32.WaitResult.removed count]).2 ≠ watch
        → (Win32.addKey s port os watch param keyobject [Win32.WaitResult.removed count]).2 = 0))
    ∧ (∀ (threadRunLoop : Nat) (os : MacOS.StreamAnswers) (path : List Nat) (keyref : Nat),
      (MacOS.addKey threadRunLoop os path keyref = none ↔ threadRunLoop = 0)
      ∧ (threadRunLoop ≠ 0 →
          MacOS.addKey threadRunLoop os path keyref
            = some (MacOS.WatchKey.new keyref path, os.FSEventStreamCreate))) := by
  constructor
  · intro s port os watch param keyobject count hrun hq hslot hcount hport _ hnew
    rw [Win32.addKey_pointer s port os watch param keyobject count hrun hq hslot hcount hport]
    split_ifs with h
    · exact ⟨⟨fun _ => h, fun _ => rfl⟩, fun hne => absurd rfl hne⟩
    · exact ⟨⟨fun h0 => absurd h0.symm hnew, fun h1 => absurd h1 h⟩, fun _ => rfl⟩
  · intro threadRunLoop os path keyref
    unfold MacOS.addKey
    by_cases h : threadRunLoop = 0
    · simp [h]
    · simp [h]

/-- C12 at a Windows `addKey` whose first read fails with
`ERROR_ACCESS_DENIED`, and at a macOS `addKey` on a thread with a run loop. -/
theorem C12_addKey_result_witness :
    (Win32.addKey (Win32.sampleService [] [some Win32.ERROR_ACCESS_DENIED]) 1
        { CreateFile := 700, CreateEvent := 800, CreateIoCompletionPort := 900,
          PostQueuedCompletionStatus := true }
        300 9 77 [Win32.WaitResult.removed 1]).2 = 0
    ∧ MacOS.addKey 1 { FSEventStreamCreate := 5, FSEventStreamStart := true } MacOS.pathData 7
      = some (MacOS.WatchKey.new 7 MacOS.pathData, 5) :=
  ⟨(C12_addKey_result.1 (Win32.sampleService [] [some Win32.ERROR_ACCESS_DENIED]) 1
      { CreateFile := 700, CreateEvent := 800, CreateIoCompletionPort := 900,
        PostQueuedCompletionStatus := true }
      300 9 77 1 rfl rfl (by decide) (by decide) (by decide) (by decide) (by decide)).2
      (by decide),
    (C12_addKey_result.2 1 { FSEventStreamCreate := 5, FSEventStreamStart := true }
      MacOS.pathData 7).2 (by decide)⟩

/-! # The poll command -/

namespace Win32

theorem port_rearm (s : WatcherService) (watch : Nat) : (rearm s watch).port = s.port := by
  unfold rearm readDirectoryChanges
  dsimp only
  split_ifs <;> rfl

theorem port_handleNotifyInformations (s : WatcherService) (watch bytes : Nat) :
    (handleNotifyInformations s watch bytes).port = s.port := by
  unfold handleNotifyInformations
  split_ifs
  · rw [port_rearm]
  · rw [port_rearm]; rfl
  · rfl

/-- Handling an entry takes nothing off the port: it only appends. -/
theorem port_handleEntry (st : WatcherService × Bool) (entry : OVERLAPPED_ENTRY) :
    ∃ more, (handleEntry st entry).1.port = st.1.port ++ more := by
  unfold handleEntry
  split_ifs
  · exact ⟨[], by simp⟩
  · unfold handlePoll PostQueuedCompletionStatus
    split_ifs
    · exact ⟨[], by simp⟩
    · exact ⟨_, rfl⟩
  · unfold handlePollDone
    split_ifs <;> exact ⟨[], by simp⟩
  · unfold handleAddFile handleAddFileBody readDirectoryChanges
    dsimp only
    split_ifs <;> exact ⟨[], by simp⟩
  · unfold handleRemoveFile PostQueuedCompletionStatus
    dsimp only
    split_ifs <;> exact ⟨_, rfl⟩
  · unfold handleDeleteFile
    split_ifs <;> exact ⟨[], by simp⟩
  · exact ⟨[], by simp⟩
  · exact ⟨[], by simp [port_handleNotifyInformations]⟩

theorem port_foldl_handleEntry (l : List OVERLAPPED_ENTRY) :
    ∀ st : WatcherService × Bool, ∃ more, (l.foldl handleEntry st).1.port = st.1.port ++ more := by
  induction l with
  | nil => intro st; exact ⟨[], by simp⟩
  | cons e rest ih =>
    intro st
    obtain ⟨m1, h1⟩ := port_handleEntry st e
    obtain ⟨m2, h2⟩ := ih (handleEntry st e)
    exact ⟨m1 ++ m2, by rw [List.foldl_cons, h2, h1, List.append_assoc]⟩

theorem port_walkAhead (s : WatcherService) (j : Nat) (st : WatcherService × Bool) :
    ∃ more, (walkAhead s j st).port = st.1.port ++ more := by
  obtain ⟨m, hm⟩ := port_foldl_handleEntry (s.overlappedEntries.take j).reverse st
  unfold walkAhead
  dsimp only
  split_ifs
  · exact ⟨m, by rw [← hm]; rfl⟩
  · exact ⟨m, hm⟩

/-- The walk of a batch, cut at index `j`: the entries behind `j`, the entry
at `j`, the entries ahead of `j`. -/
theorem handleCompletionEntries_split (s : WatcherService) (n j : Nat)
    (hfit : n ≤ s.overlappedEntries.length) (h32 : n < 2 ^ 32) (hj : j < n) :
    handleCompletionEntries s n
      = walkAhead s j (handleEntry (walkBefore s n j) (s.overlappedEntries.getD j default)) := by
  have hlen : j < (s.overlappedEntries.take n).length := by
    rw [List.length_take]; omega
  have hcut : s.overlappedEntries.take n
      = s.overlappedEntries.take j ++ s.overlappedEntries.getD j default
          :: (s.overlappedEntries.take n).drop (j + 1) := by
    have h1 := (List.take_append_drop j (s.overlappedEntries.take n)).symm
    rw [List.take_take, min_eq_left (by omega), List.drop_eq_getElem_cons hlen] at h1
    have h2 : (s.overlappedEntries.take n)[j] = s.overlappedEntries.getD j default := by
      rw [List.getElem_take]
      simp [List.getD, List.getElem?_eq_getElem (show j < s.overlappedEntries.length by omega)]
    rw [h2] at h1
    exact h1
  rw [handleCompletionEntries_eq_reverse s n hfit h32]
  unfold handleInReverseOrder walkAhead walkBefore
  rw [hcut]
  simp only [List.reverse_append, List.reverse_cons, List.foldl_append, List.foldl_cons,
    List.foldl_nil, List.append_assoc]
  rw [← hcut]

theorem handleEntry_pollCommand (st : WatcherService × Bool) (watch : Nat) :
    handleEntry st (pollCommand watch) = (handlePoll st.1 watch, st.2) := by
  unfold handleEntry pollCommand
  simp [COMMAND_KEY_EXIT, COMMAND_KEY_POLL]

end Win32

namespace Win32

theorem signals_map_notify (es : List Event) : signals (es.map Effect.notify) = [] := by
  induction es with
  | nil => rfl
  | cons x xs ih => simp [signals, ih]

theorem signals_readDirectoryChangesLoop (fileHandle keyObject : Nat) (rdcw : List (Option Nat)) :
    signals (readDirectoryChangesLoop fileHandle keyObject rdcw).1 = [] := by
  obtain ⟨pre, final, h1, h2, _⟩ := readDirectoryChangesLoop_last fileHandle keyObject rdcw
  rw [h1, signals_append, h2]
  rfl

theorem trace_rearm (s : WatcherService) (watch : Nat) :
    (rearm s watch).trace = s.trace
      ++ (readDirectoryChangesLoop (s.watches watch).fileHandle (s.watches watch).keyObject
          s.rdcw).1 := by
  unfold rearm readDirectoryChanges
  dsimp only
  split_ifs <;> rfl

/-- Handling the completion of a read calls `SetEvent` on no handle. -/
theorem calls_handleNotifyInformations (s : WatcherService) (watch bytes : Nat) :
    ∃ calls, (handleNotifyInformations s watch bytes).trace = s.trace ++ calls
      ∧ signals calls = [] := by
  unfold handleNotifyInformations
  split_ifs
  · refine ⟨_, by rw [trace_rearm, List.append_assoc], ?_⟩
    rw [signals_append, signals_map_notify, signals_readDirectoryChangesLoop]
    rfl
  · refine ⟨_, by rw [trace_rearm]; simp only [postOverflowEvent]; rw [List.append_assoc], ?_⟩
    rw [signals_append, signals_readDirectoryChangesLoop]
    rfl
  · exact ⟨[], by simp, rfl⟩

theorem handleEntry_completion (st : WatcherService × Bool) (e : OVERLAPPED_ENTRY)
    (h : e.lpOverlapped ≠ 0) :
    handleEntry st e
      = (handleNotifyInformations st.1 e.lpCompletionKey e.dwNumberOfBytesTransferred, st.2) := by
  unfold handleEntry
  rw [if_neg h]

/-- Handling completions of reads, one after the other, calls `SetEvent` on
no handle and leaves the exit flag as it is. -/
theorem calls_foldl_completions (l : List OVERLAPPED_ENTRY) (hl : ∀ e ∈ l, e.lpOverlapped ≠ 0) :
    ∀ st : WatcherService × Bool, ∃ calls,
      (l.foldl handleEntry st).1.trace = st.1.trace ++ calls ∧ signals calls = []
      ∧ (l.foldl handleEntry st).2 = st.2 := by
  induction l with
  | nil => intro st; exact ⟨[], by simp, rfl, rfl⟩
  | cons e rest ih =>
    intro st
    have he : e.lpOverlapped ≠ 0 := hl e (List.mem_cons_self _ _)
    obtain ⟨c1, h1, h2⟩ := calls_handleNotifyInformations st.1 e.lpCompletionKey
      e.dwNumberOfBytesTransferred
    obtain ⟨c2, h3, h4, h5⟩ := ih (fun x hx => hl x (List.mem_cons_of_mem _ hx))
      (handleEntry st e)
    refine ⟨c1 ++ c2, ?_, ?_, ?_⟩
    · rw [List.foldl_cons, h3, handleEntry_completion st e he]
      show (handleNotifyInformations st.1 e.lpCompletionKey e.dwNumberOfBytesTransferred).trace
        ++ c2 = _
      rw [h1, List.append_assoc]
    · rw [signals_append, h2, h4]
      rfl
    · rw [List.foldl_cons, h5, handleEntry_completion st e he]

/-- A round of `runThread` whose wait hands over at least one entry handles
the batch handed over. -/
theorem runThreadIteration_removed (s : WatcherService) (count : Nat) (hrun : s.exited = none)
    (hk : batchSize s count ≠ 0) :
    runThreadIteration s (WaitResult.removed count)
      = handleCompletionEntries (afterWait s (batchSize s count)) (batchSize s count) := by
  unfold runThreadIteration
  rw [if_neg (by simp [hrun])]
  unfold batchSize at hk
  simp only [hk, if_false]
  rfl

end Win32

namespace Win32

/-- The batch of a wait that reaches a poll command in the port: it fits the
vector, holds the command at the index that counts the entries ahead of it,
and holds those entries below that index. -/
theorem afterWait_poll (s : WatcherService) (k watch : Nat) (ahead behind : List OVERLAPPED_ENTRY)
    (hq : s.port = ahead ++ pollCommand watch :: behind) (hj : ahead.length < k)
    (hk1 : k ≤ s.port.length) :
    k ≤ (afterWait s k).overlappedEntries.length
    ∧ (afterWait s k).overlappedEntries.getD ahead.length default = pollCommand watch
    ∧ (afterWait s k).overlappedEntries.take ahead.length = ahead := by
  have hlen : (s.port.take k).length = k := by
    rw [List.length_take]; omega
  refine ⟨?_, ?_, ?_⟩
  · show k ≤ (s.port.take k ++ s.overlappedEntries.drop k).length
    rw [List.length_append, hlen]
    omega
  · show (s.port.take k ++ s.overlappedEntries.drop k).getD ahead.length default = _
    rw [List.getD_append _ _ _ _ (by rw [hlen]; exact hj)]
    have h1 : (s.port.take k)[ahead.length]? = some (pollCommand watch) := by
      rw [List.getElem?_take_of_lt hj, hq,
        List.getElem?_append_right (le_refl _)]
      simp
    simp [List.getD, h1]
  · show (s.port.take k ++ s.overlappedEntries.drop k).take ahead.length = _
    rw [List.take_append_of_le_length (by rw [hlen]; omega), List.take_take,
      min_eq_left (by omega), hq, List.take_left]

theorem trace_executeExitThread (s : WatcherService) (exitcode : Nat) :
    ∃ exitCalls, (executeExitThread s exitcode).trace = s.trace ++ exitCalls
      ∧ notifications exitCalls = [] := by
  refine ⟨(if s.env ≠ 0 then [Effect.DetachCurrentThread] else [])
    ++ s.pollEventNotifies.map Effect.SetEvent ++ [Effect.ExitThread exitcode], ?_, ?_⟩
  · simp [executeExitThread, List.append_assoc]
  · rw [notifications_append, notifications_append, notifications_map_SetEvent]
    split_ifs <;> rfl

end Win32

namespace Win32

/-- C14 (as stated it fails): three runs from the service with the watches at
`100` and `200` registered, in each of which `SetEvent` is called on the poll
event `607` of the watch at `100` before the `Created` event of a completion
that was in the port ahead of a poll command for that watch.  In the first the
port holds the completion, a remove command and the poll command, and one wait
returns all three: the pending gate is released by the remove command.  In the
second an earlier poll has left its marker in the port ahead of the completion
and of a second poll command.  In the third the watch is in error state when
the completion and the poll command are returned together, and the gate is
signaled at once. -/
theorem C14_gate_signaled_before_notification :
    (run (sampleService [completionOf 100 16, removeCommand 100, pollCommand 100]
          [some ERROR_INVALID_HANDLE])
        [Step.wait (WaitResult.removed 3)]).trace
      = [Effect.SetEvent 607, Effect.CancelIoEx 507, Effect.CloseHandle 507, Effect.SetEvent 607,
         Effect.CloseHandle 607,
         Effect.notify { keyObject := 7, flag := FLAG_EVENT_CREATE, path := some [97] },
         Effect.ReadDirectoryChangesW INVALID_HANDLE_VALUE (some ERROR_INVALID_HANDLE)]
    ∧ (run (sampleService [pollCommand 100, completionOf 100 16] [])
        [Step.wait (WaitResult.removed 1), Step.post (pollCommand 100),
         Step.wait (WaitResult.removed 3)]).trace
      = [Effect.SetEvent 607,
         Effect.notify { keyObject := 7, flag := FLAG_EVENT_CREATE, path := some [97] },
         Effect.ReadDirectoryChangesW 507 none]
    ∧ (run (sampleService [completionOf 100 16] [some ERROR_ACCESS_DENIED])
        [Step.wait (WaitResult.removed 1), Step.post (completionOf 100 16),
         Step.post (pollCommand 100), Step.wait (WaitResult.removed 2)]).trace
      = [Effect.notify { keyObject := 7, flag := FLAG_EVENT_CREATE, path := some [97] },
         Effect.ReadDirectoryChangesW 507 (some ERROR_ACCESS_DENIED),
         Effect.SetEvent 607,
         Effect.notify { keyObject := 7, flag := FLAG_EVENT_CREATE, path := some [97] },
         Effect.ReadDirectoryChangesW 507 none] := by
  refine ⟨by decide, by decide, by decide⟩

/-- C14 (amended): a wait returns a poll command together with all entries
that are ahead of it in the port, and these are all completions of reads.
The round handles the poll command first among them, in the state
`roundBefore`, and then the completions ahead, and after them exits if an exit
command was in the batch.  Its calls from the poll command on are: the calls
of the poll command, then `calls`, the calls of the completions ahead, which
hold no `SetEvent`, then `exitCalls`, which hold no `notifyEvent`.  If the
watch is not in error state and `overlappedEntries` has more than one slot
when the poll command is handled, the poll command makes no call: its poll
event becomes pending and its marker joins the end of the port, where it still
is after the round; so no gate is signaled before the events of all
completions ahead of the poll command are delivered.  Otherwise the poll
command calls `SetEvent` on the poll event at once, before `calls`. -/
theorem C14_poll_gate_after_completions_ahead (s : WatcherService) (count watch : Nat)
    (ahead behind : List OVERLAPPED_ENTRY)
    (hrun : s.exited = none) (h32 : s.overlappedEntries.length < 2 ^ 32)
    (hq : s.port = ahead ++ pollCommand watch :: behind)
    (hin : ahead.length < min count s.overlappedEntries.length)
    (hahead : ∀ e ∈ ahead, e.lpOverlapped ≠ 0) :
    (∃ calls exitCalls,
      (runThreadIteration s (WaitResult.removed count)).trace
        = (handlePoll (roundBefore s count ahead.length).1 watch).trace ++ calls ++ exitCalls
      ∧ (ahead.reverse.foldl handleEntry
          (handlePoll (roundBefore s count ahead.length).1 watch,
            (roundBefore s count ahead.length).2)).1.trace
        = (handlePoll (roundBefore s count ahead.length).1 watch).trace ++ calls
      ∧ signals calls = [] ∧ notifications exitCalls = [])
    ∧ (((roundBefore s count ahead.length).1.overlappedEntries.length ≠ 1
        ∧ ((roundBefore s count ahead.length).1.watches watch).anyErrorCode = ERROR_SUCCESS) →
      (handlePoll (roundBefore s count ahead.length).1 watch).trace
        = (roundBefore s count ahead.length).1.trace
      ∧ ((roundBefore s count ahead.length).1.watches watch).pollEvent
          ∈ (handlePoll (roundBefore s count ahead.length).1 watch).pollEventNotifies
      ∧ (handlePoll (roundBefore s count ahead.length).1 watch).port
        = (roundBefore s count ahead.length).1.port
          ++ [pollDoneMarker ((roundBefore s count ahead.length).1.watches watch).pollEvent]
      ∧ ∃ posted, (runThreadIteration s (WaitResult.removed count)).port
        = (roundBefore s count ahead.length).1.port
          ++ pollDoneMarker ((roundBefore s count ahead.length).1.watches watch).pollEvent
            :: posted)
    ∧ (((roundBefore s count ahead.length).1.overlappedEntries.length = 1
        ∨ ((roundBefore s count ahead.length).1.watches watch).anyErrorCode ≠ ERROR_SUCCESS) →
      (handlePoll (roundBefore s count ahead.length).1 watch).trace
        = (roundBefore s count ahead.length).1.trace
          ++ [Effect.SetEvent ((roundBefore s count ahead.length).1.watches watch).pollEvent]) := by
  have hplen : s.port.length = ahead.length + (behind.length + 1) := by
    rw [hq]; simp
  have hk : ahead.length < batchSize s count := by
    unfold batchSize
    omega
  have hk1 : batchSize s count ≤ s.port.length := by
    unfold batchSize; omega
  have hk2 : batchSize s count ≤ s.overlappedEntries.length := by
    unfold batchSize; omega
  obtain ⟨hfit, hentry, htake⟩ := afterWait_poll s (batchSize s count) watch ahead behind hq hk hk1
  have hround : runThreadIteration s (WaitResult.removed count)
      = walkAhead (afterWait s (batchSize s count)) ahead.length
          (handlePoll (roundBefore s count ahead.length).1 watch,
            (roundBefore s count ahead.length).2) := by
    rw [runThreadIteration_removed s count hrun (by omega),
      handleCompletionEntries_split _ _ ahead.length hfit (by omega) hk, hentry,
      handleEntry_pollCommand]
    rfl
  obtain ⟨calls, hc1, hc2, hc3⟩ := calls_foldl_completions ahead.reverse
    (fun e he => hahead e (List.mem_reverse.1 he))
    (handlePoll (roundBefore s count ahead.length).1 watch, (roundBefore s count ahead.length).2)
  refine ⟨?_, ?_, ?_⟩
  · rw [hround]
    unfold walkAhead
    rw [htake]
    dsimp only
    split_ifs
    · obtain ⟨exitCalls, he1, he2⟩ := trace_executeExitThread
        (ahead.reverse.foldl handleEntry
          (handlePoll (roundBefore s count ahead.length).1 watch,
            (roundBefore s count ahead.length).2)).1 0
      exact ⟨calls, exitCalls, by rw [he1, hc1], hc1, hc2, he2⟩
    · exact ⟨calls, [], by rw [hc1, List.append_nil], hc1, hc2, rfl⟩
  · rintro ⟨hsize, hvalid⟩
    have hpoll : handlePoll (roundBefore s count ahead.length).1 watch
        = PostQueuedCompletionStatus
            { (roundBefore s count ahead.length).1 with
              pollEventNotifies := setInsert (roundBefore s count ahead.length).1.pollEventNotifies
                ((roundBefore s count ahead.length).1.watches watch).pollEvent }
            COMMAND_KEY_POLL_DONE ((roundBefore s count ahead.length).1.watches watch).pollEvent := by
      unfold handlePoll
      rw [if_neg (by simp [hsize, hvalid])]
    have hport : (handlePoll (roundBefore s count ahead.length).1 watch).port
        = (roundBefore s count ahead.length).1.port
          ++ [pollDoneMarker ((roundBefore s count ahead.length).1.watches watch).pollEvent] := by
      rw [hpoll]; rfl
    refine ⟨by rw [hpoll]; rfl, by rw [hpoll]; exact mem_setInsert _ _, hport, ?_⟩
    obtain ⟨more, hmore⟩ := port_walkAhead (afterWait s (batchSize s count)) ahead.length
      (handlePoll (roundBefore s count ahead.length).1 watch, (roundBefore s count ahead.length).2)
    refine ⟨more, ?_⟩
    rw [hround, hmore]
    show (handlePoll (roundBefore s count ahead.length).1 watch).port ++ more = _
    rw [hport, List.append_assoc]
    rfl
  · intro himm
    unfold handlePoll
    rw [if_pos himm]

end Win32

namespace Win32

/-- C14 at the port with a completion for the watch at `100` followed by its
poll command, the watch being in good state. -/
theorem C14_poll_gate_after_completions_ahead_witness :
    samplePollQueue.exited = none ∧ samplePollQueue.overlappedEntries.length < 2 ^ 32
    ∧ samplePollQueue.port = [completionOf 100 16] ++ pollCommand 100 :: []
    ∧ [completionOf 100 16].length < min 2 samplePollQueue.overlappedEntries.length
    ∧ (∀ e ∈ [completionOf 100 16], e.lpOverlapped ≠ 0)
    ∧ ((roundBefore samplePollQueue 2 1).1.overlappedEntries.length ≠ 1
        ∧ ((roundBefore samplePollQueue 2 1).1.watches 100).anyErrorCode = ERROR_SUCCESS)
    ∧ (∃ calls exitCalls,
        (runThreadIteration samplePollQueue (WaitResult.removed 2)).trace
          = (handlePoll (roundBefore samplePollQueue 2 1).1 100).trace ++ calls ++ exitCalls
        ∧ ([completionOf 100 16].reverse.foldl handleEntry
            (handlePoll (roundBefore samplePollQueue 2 1).1 100,
              (roundBefore samplePollQueue 2 1).2)).1.trace
          = (handlePoll (roundBefore samplePollQueue 2 1).1 100).trace ++ calls
        ∧ signals calls = [] ∧ notifications exitCalls = [])
    ∧ (handlePoll (roundBefore samplePollQueue 2 1).1 100).trace
        = (roundBefore samplePollQueue 2 1).1.trace :=
  ⟨rfl, by decide, rfl, by decide, by decide, by decide,
    (C14_poll_gate_after_completions_ahead samplePollQueue 2 100 [completionOf 100 16] [] rfl
      (by decide) rfl (by decide) (by decide)).1,
    ((C14_poll_gate_after_completions_ahead samplePollQueue 2 100 [completionOf 100 16] [] rfl
      (by decide) rfl (by decide) (by decide)).2.1 (by decide)).1⟩

end Win32
